import Mathlib

/-!
Formal model of the HuskyApply semantic caching engine
(`src/brain/semantic_cache.py` and `src/brain/vector_database.py`),
shallowly embedded in Lean 4.

Modelling conventions:
* Python floats are modelled as `ℚ` (every constant in the source is an exact
  decimal, and no claim depends on rounding).
* Python dicts are modelled as insertion-ordered association lists
  (`List (κ × α)`) with Python-dict update semantics: replacing an existing
  key keeps its position, a fresh key is appended.
* `time.time()` is passed explicitly as a `now : ℚ` argument.
* Fallible collaborators (the sentence-transformer embedding model, the
  ChromaDB backend) are passed as explicit function/flag arguments.
-/

/- The rational-number arithmetic primitives are `@[irreducible]` upstream;
making them semireducible within this file lets concrete executions of the
model be settled by `decide`. -/
attribute [local semireducible] Rat.add Rat.mul Rat.sub Rat.inv Rat.ofScientific

namespace HuskyApply

/-! ## Association lists with Python-dict semantics -/

/-- Lookup of the first binding of `k` (Python `d[k]` / `d.get(k)`). -/
def alGet {κ α : Type} [DecidableEq κ] (k : κ) : List (κ × α) → Option α
  | [] => none
  | (k', v) :: t => if k' = k then some v else alGet k t

/-- Python `d[k] = v`: replace the first binding in place, else append. -/
def alPut {κ α : Type} [DecidableEq κ] (k : κ) (v : α) : List (κ × α) → List (κ × α)
  | [] => [(k, v)]
  | (k', v') :: t => if k' = k then (k, v) :: t else (k', v') :: alPut k v t

/-- Python `del d[k]`: drop the first binding of `k`. -/
def alErase {κ α : Type} [DecidableEq κ] (k : κ) : List (κ × α) → List (κ × α)
  | [] => []
  | (k', v') :: t => if k' = k then t else (k', v') :: alErase k t

/-- Python `min(xs, key=f)`: the first element with minimal key. -/
def argminBy {α β : Type} [LinearOrder β] (f : α → β) : List α → Option α
  | [] => none
  | x :: xs =>
    match argminBy f xs with
    | none => some x
    | some y => if f x ≤ f y then some x else some y

/-! ## Strings: the fragments of Python string behaviour the source uses.
All are implemented by structural recursion over the character list, so
that concrete executions reduce inside the kernel. -/

/-- ASCII case folding, which is what Python `str.lower()` does on the
ASCII inputs this system handles. -/
def asciiLower (c : Char) : Char :=
  if 65 ≤ c.toNat ∧ c.toNat ≤ 90 then Char.ofNat (c.toNat + 32) else c

def asciiUpper (c : Char) : Char :=
  if 97 ≤ c.toNat ∧ c.toNat ≤ 122 then Char.ofNat (c.toNat - 32) else c

/-- Python `str.lower()`. -/
def pyLower (s : String) : String := String.mk (s.toList.map asciiLower)

/-- Python `str.upper()`. -/
def pyUpper (s : String) : String := String.mk (s.toList.map asciiUpper)

/-- Python `str.startswith` / the Redis glob `prefix*`. -/
def strStartsWith (s pre : String) : Bool := pre.toList.isPrefixOf s.toList

/-- Left-to-right non-overlapping replacement, with fuel bounded by the
list length (each step consumes at least one character; the patterns the
source uses are never empty). -/
def replaceChars (pat repl : List Char) : Nat → List Char → List Char
  | 0, l => l
  | _ + 1, [] => []
  | fuel + 1, c :: cs =>
    if pat ≠ [] ∧ pat.isPrefixOf (c :: cs) then
      repl ++ replaceChars pat repl fuel ((c :: cs).drop pat.length)
    else c :: replaceChars pat repl fuel cs

/-- Python `str.replace`. -/
def pyReplace (s pat repl : String) : String :=
  String.mk (replaceChars pat.toList repl.toList s.toList.length s.toList)

/-- Split on a character predicate, keeping empty pieces. -/
def splitChars (p : Char → Bool) : List Char → List (List Char)
  | [] => [[]]
  | c :: cs =>
    if p c then [] :: splitChars p cs
    else
      match splitChars p cs with
      | [] => [[c]]
      | w :: ws => (c :: w) :: ws

/-- Python `str.split()`: split on whitespace, dropping empty pieces. -/
def pyWords (s : String) : List String :=
  ((splitChars Char.isWhitespace s.toList).filter (fun w => w ≠ [])).map String.mk

def listContainsSub (hay pat : List Char) : Bool :=
  pat.isPrefixOf hay ||
    match hay with
    | [] => false
    | _ :: t => listContainsSub t pat

/-- Python `needle in haystack` for strings (`"" in s` is `True`). -/
def strContains (haystack needle : String) : Bool :=
  listContainsSub haystack.toList needle.toList

/-! ## Vector arithmetic -/

/-- `np.dot` on equal-length vectors; cosine similarity of normalized ones. -/
def dotQ (a b : List ℚ) : ℚ := (List.zipWith (· * ·) a b).sum

/-! ## SHA-256 (`hashlib.sha256(...).hexdigest()`), over `Nat` words -/

namespace Sha256

/-- UTF-8 encoding of one character (Python `str.encode()`). -/
def utf8EncodeChar (c : Char) : List Nat :=
  let n := c.toNat
  if n < 0x80 then [n]
  else if n < 0x800 then
    [0xC0 ||| (n >>> 6), 0x80 ||| (n &&& 0x3F)]
  else if n < 0x10000 then
    [0xE0 ||| (n >>> 12), 0x80 ||| ((n >>> 6) &&& 0x3F), 0x80 ||| (n &&& 0x3F)]
  else
    [0xF0 ||| (n >>> 18), 0x80 ||| ((n >>> 12) &&& 0x3F),
     0x80 ||| ((n >>> 6) &&& 0x3F), 0x80 ||| (n &&& 0x3F)]

def utf8Bytes (s : String) : List Nat := s.toList.flatMap utf8EncodeChar

def w32 (n : Nat) : Nat := n % 4294967296

def rotr (n x : Nat) : Nat := w32 ((x >>> n) ||| (x <<< (32 - n)))

def smallSigma0 (x : Nat) : Nat := (rotr 7 x) ^^^ (rotr 18 x) ^^^ (x >>> 3)
def smallSigma1 (x : Nat) : Nat := (rotr 17 x) ^^^ (rotr 19 x) ^^^ (x >>> 10)
def bigSigma0 (x : Nat) : Nat := (rotr 2 x) ^^^ (rotr 13 x) ^^^ (rotr 22 x)
def bigSigma1 (x : Nat) : Nat := (rotr 6 x) ^^^ (rotr 11 x) ^^^ (rotr 25 x)

def K : List Nat :=
  [1116352408, 1899447441, 3049323471, 3921009573, 961987163, 1508970993,
   2453635748, 2870763221, 3624381080, 310598401, 607225278, 1426881987,
   1925078388, 2162078206, 2614888103, 3248222580, 3835390401, 4022224774,
   264347078, 604807628, 770255983, 1249150122, 1555081692, 1996064986,
   2554220882, 2821834349, 2952996808, 3210313671, 3336571891, 3584528711,
   113926993, 338241895, 666307205, 773529912, 1294757372, 1396182291,
   1695183700, 1986661051, 2177026350, 2456956037, 2730485921, 2820302411,
   3259730800, 3345764771, 3516065817, 3600352804, 4094571909, 275423344,
   430227734, 506948616, 659060556, 883997877, 958139571, 1322822218,
   1537002063, 1747873779, 1955562222, 2024104815, 2227730452, 2361852424,
   2428436474, 2756734187, 3204031479, 3329325298]

def initH : List Nat :=
  [1779033703, 3144134277, 1013904242, 2773480762,
   1359893119, 2600822924, 528734635, 1541459225]

/-- Append the `0x80` byte, zero padding, and the 64-bit big-endian bit length. -/
def padMessage (msg : List Nat) : List Nat :=
  let len := msg.length
  let bitLen := len * 8
  let padZeros := (55 - len % 64 + 64) % 64
  msg ++ [0x80] ++ List.replicate padZeros 0 ++
    [(bitLen >>> 56) &&& 0xff, (bitLen >>> 48) &&& 0xff, (bitLen >>> 40) &&& 0xff,
     (bitLen >>> 32) &&& 0xff, (bitLen >>> 24) &&& 0xff, (bitLen >>> 16) &&& 0xff,
     (bitLen >>> 8) &&& 0xff, bitLen &&& 0xff]

/-- Big-endian 32-bit words from bytes. -/
def bytesToWords : List Nat → List Nat
  | a :: b :: c :: d :: rest => ((a <<< 24) ||| (b <<< 16) ||| (c <<< 8) ||| d) :: bytesToWords rest
  | _ => []

/-- Extend the 16 block words to the 64-entry message schedule. -/
def scheduleAux : Nat → List Nat → List Nat
  | 0, acc => acc
  | n + 1, acc =>
    let t := acc.length
    let wt := w32 (smallSigma1 (acc.getD (t - 2) 0) + acc.getD (t - 7) 0 +
                   smallSigma0 (acc.getD (t - 15) 0) + acc.getD (t - 16) 0)
    scheduleAux n (acc ++ [wt])

def compressLoop : List (Nat × Nat) → (Nat × Nat × Nat × Nat × Nat × Nat × Nat × Nat) →
    Nat × Nat × Nat × Nat × Nat × Nat × Nat × Nat
  | [], st => st
  | (k, w) :: rest, (a, b, c, d, e, f, g, h) =>
    let ch := (e &&& f) ^^^ ((0xffffffff ^^^ e) &&& g)
    let maj := (a &&& b) ^^^ (a &&& c) ^^^ (b &&& c)
    let t1 := w32 (h + bigSigma1 e + ch + k + w)
    let t2 := w32 (bigSigma0 a + maj)
    compressLoop rest (w32 (t1 + t2), a, b, c, w32 (d + t1), e, f, g)

def compress (h : List Nat) (block : List Nat) : List Nat :=
  let w := scheduleAux 48 block
  let a0 := h.getD 0 0
  let b0 := h.getD 1 0
  let c0 := h.getD 2 0
  let d0 := h.getD 3 0
  let e0 := h.getD 4 0
  let f0 := h.getD 5 0
  let g0 := h.getD 6 0
  let h0 := h.getD 7 0
  match compressLoop (K.zip w) (a0, b0, c0, d0, e0, f0, g0, h0) with
  | (a, b, c, d, e, f, g, hh) =>
    [w32 (a0 + a), w32 (b0 + b), w32 (c0 + c), w32 (d0 + d),
     w32 (e0 + e), w32 (f0 + f), w32 (g0 + g), w32 (h0 + hh)]

def processBlocksAux : Nat → List Nat → List Nat → List Nat
  | 0, h, _ => h
  | n + 1, h, bytes => processBlocksAux n (compress h (bytesToWords (bytes.take 64))) (bytes.drop 64)

/-- SHA-256 digest of a byte list, as eight 32-bit words. -/
def sha256Words (msg : List Nat) : List Nat :=
  let padded := padMessage msg
  processBlocksAux (padded.length / 64) initH padded

def hexDigit (n : Nat) : Char := if n < 10 then Char.ofNat (48 + n) else Char.ofNat (87 + n)

def toHex8 (n : Nat) : String :=
  String.mk ((List.range 8).map (fun i => hexDigit ((n >>> ((7 - i) * 4)) &&& 0xf)))

end Sha256

/-- `hashlib.sha256(s.encode()).hexdigest()[:16]`: the sixteen leading hex
digits are exactly the first two digest words. -/
def sha256hex16 (s : String) : String :=
  match Sha256.sha256Words (Sha256.utf8Bytes s) with
  | h0 :: h1 :: _ => Sha256.toHex8 h0 ++ Sha256.toHex8 h1
  | _ => ""

/-! ## Data model (`semantic_cache.py`) -/

/-- `CacheEntry` (semantic_cache.py, `@dataclass`). -/
structure CacheEntry where
  content : String
  embedding : List ℚ
  company : String
  role : String
  skills : List String
  model_provider : String
  model_name : String
  token_count : Nat
  cost_usd : ℚ
  created_at : ℚ
  hit_count : Nat := 0
  last_accessed : ℚ := 0
  quality_score : ℚ := 1
deriving DecidableEq, Repr

/-- `CacheConfig` (semantic_cache.py). The Redis connection fields and the
embedding-model name (pure I/O configuration) are not modelled. Note the
dataclass has a `min_quality_score` field but no `min_quality_threshold`
field — `_find_best_match_faiss` nevertheless reads the latter. -/
structure CacheConfig where
  similarity_threshold : ℚ := 0.85
  max_cache_size : Nat := 10000
  ttl_seconds : Nat := 604800
  cache_warming_enabled : Bool := true
  min_quality_score : ℚ := 0.7
  company_partition_enabled : Bool := true
  enable_cache_analytics : Bool := true
  enable_vector_db : Bool := true
deriving DecidableEq, Repr

/-- `CacheStats` (semantic_cache.py). -/
structure CacheStats where
  total_requests : Nat := 0
  cache_hits : Nat := 0
  cache_misses : Nat := 0
  average_similarity : ℚ := 0
  total_cost_saved : ℚ := 0
  total_tokens_saved : Nat := 0
  hit_ratio : ℚ := 0
deriving DecidableEq, Repr

/-- `CacheStats.update_hit_ratio`. -/
def updateHitRatio (st : CacheStats) : CacheStats :=
  if 0 < st.total_requests then
    {st with hit_ratio := (st.cache_hits : ℚ) / (st.total_requests : ℚ)}
  else st

/-- The parsed job-description dictionary (`parsed_jd`), with the fields the
cache reads. A missing dict key is `none` (for `.get(k)` defaults) or `[]`
(for the skill lists). Call sites that take `Optional[Dict]` use
`Option ParsedJD`, where `none` stands for Python `None` — and also for the
empty dict, since the source tests `if not parsed_jd`, which treats both
alike. -/
structure ParsedJD where
  company : Option String := none
  role : Option String := none
  complexity : Option String := none
  job_level : Option String := none
  industry_type : Option String := none
  required_skills : List String := []
  preferred_skills : List String := []
  skills : List String := []
deriving DecidableEq, Repr

/-! ## Data model (`vector_database.py`) -/

/-- `VectorDBConfig` (vector_database.py), restricted to the fields the
modelled operations read. -/
structure VectorDBConfig where
  similarity_threshold : ℚ := 0.85
  max_results : Nat := 10
  batch_size : Nat := 100
  enable_faiss_acceleration : Bool := true
  max_memory_cache_size : Nat := 1000
  enable_memory_cache : Bool := true
  cache_eviction_policy : String := "LRU"
  failure_threshold : Nat := 5
  recovery_timeout : ℚ := 60
  half_open_max_calls : Nat := 3
deriving DecidableEq, Repr

/-- `VectorSearchResult` (vector_database.py). The raw `metadata` dict is
carried alongside in the source but never read by the behaviour modelled
here, so it is not a field. -/
structure VectorSearchResult where
  entry : CacheEntry
  similarity : ℚ
  distance : ℚ
deriving DecidableEq, Repr

/-! ## CircuitBreaker (vector_database.py lines 148-194) -/

/-- What one `CircuitBreaker.call` does, as seen by the caller: the gate
rejected the call before the wrapped function ran (`raise Exception(msg)`),
the wrapped function ran and returned, or it ran and its exception was
re-raised. -/
inductive CBOutcome
  | rejected (msg : String)
  | returned
  | raised
deriving DecidableEq, Repr

/-- `CircuitBreaker.__init__` state. `state` is the source's string field. -/
structure CircuitBreaker where
  failure_threshold : Nat
  recovery_timeout : ℚ
  half_open_max_calls : Nat
  failure_count : Nat := 0
  last_failure_time : ℚ := 0
  half_open_calls : Nat := 0
  state : String := "CLOSED"
deriving DecidableEq, Repr

/-- `CircuitBreaker.call(func)`, sequentially. `ok` says whether the wrapped
function succeeds; `now` is `time.time()`. Note the source never increments
`half_open_calls`; it only resets it to 0 on the OPEN → HALF_OPEN
transition. -/
def CircuitBreaker.call (cb : CircuitBreaker) (now : ℚ) (ok : Bool) :
    CircuitBreaker × CBOutcome :=
  if cb.state = "OPEN" ∧ ¬(cb.recovery_timeout < now - cb.last_failure_time) then
    (cb, .rejected "Circuit breaker is OPEN")
  else
    let cb1 := if cb.state = "OPEN" then
      {cb with state := "HALF_OPEN", half_open_calls := 0} else cb
    if cb1.state = "HALF_OPEN" ∧ cb1.half_open_max_calls ≤ cb1.half_open_calls then
      (cb1, .rejected "Circuit breaker is HALF_OPEN with max calls exceeded")
    else if ok then
      let cb2 :=
        if cb1.state = "HALF_OPEN" then {cb1 with state := "CLOSED", failure_count := 0}
        else if cb1.state = "CLOSED" then {cb1 with failure_count := 0}
        else cb1
      (cb2, .returned)
    else
      let cb2 := {cb1 with failure_count := cb1.failure_count + 1}
      let cb3 :=
        if cb2.state = "HALF_OPEN" then
          {cb2 with state := "OPEN", last_failure_time := now}
        else if cb2.failure_threshold ≤ cb2.failure_count then
          {cb2 with state := "OPEN", last_failure_time := now}
        else cb2
      (cb3, .raised)

/-- Number of calls that reach the wrapped function while the breaker stays
in HALF_OPEN, along a sequential trace of `(time, success?)` inputs
(counting stops at the first non-HALF_OPEN state). -/
def halfOpenTrials : CircuitBreaker → List (ℚ × Bool) → Nat
  | _, [] => 0
  | cb, (t, ok) :: rest =>
    if cb.state = "HALF_OPEN" then
      match cb.call t ok with
      | (cb', .rejected _) => halfOpenTrials cb' rest
      | (cb', _) => 1 + halfOpenTrials cb' rest
    else 0

/-! ## MemoryCache (vector_database.py lines 197-241) -/

/-- `MemoryCache.__init__` state. The three Python dicts are three
association lists; `cache` maps a key to `(value, stored_time)` as in the
source's `self.cache[key] = (value, time.time())`. -/
structure MemoryCache where
  max_size : Nat
  eviction_policy : String
  cache : List (String × VectorSearchResult × ℚ) := []
  access_times : List (String × ℚ) := []
  access_counts : List (String × Nat) := []
deriving DecidableEq, Repr

def MemoryCache.init (max_size : Nat) (eviction_policy : String) : MemoryCache :=
  { max_size := max_size, eviction_policy := eviction_policy }

/-- `MemoryCache.get`: a present key refreshes its recency/frequency
bookkeeping (`access_counts` is a `defaultdict(int)`, hence the `getD 0`). -/
def MemoryCache.get (c : MemoryCache) (key : String) (now : ℚ) :
    MemoryCache × Option VectorSearchResult :=
  match alGet key c.cache with
  | some (v, _) =>
    ({c with access_times := alPut key now c.access_times,
             access_counts := alPut key ((alGet key c.access_counts).getD 0 + 1) c.access_counts},
     some v)
  | none => (c, none)

/-- `MemoryCache._evict_one`: picks the victim with Python
`min(dict.keys(), key=...)` (first minimal key in insertion order). If the
selecting dict were empty while `cache` is not — unreachable from a fresh
cache — the source would raise `ValueError`; the model leaves the cache
unchanged there. -/
def MemoryCache.evictOne (c : MemoryCache) : MemoryCache :=
  if c.cache = [] then c
  else
    match (if c.eviction_policy = "LRU" then
             (argminBy (fun kv => kv.2) c.access_times).map Prod.fst
           else if c.eviction_policy = "LFU" then
             (argminBy (fun kv => kv.2) c.access_counts).map Prod.fst
           else
             (argminBy (fun kv => kv.2.2) c.cache).map Prod.fst) with
    | some k =>
      { c with cache := alErase k c.cache,
               access_times := alErase k c.access_times,
               access_counts := alErase k c.access_counts }
    | none => c

/-- `MemoryCache.put`: evict one entry when full and the key is new, then
insert/replace. -/
def MemoryCache.put (c : MemoryCache) (key : String) (value : VectorSearchResult) (now : ℚ) :
    MemoryCache :=
  let c1 := if c.max_size ≤ c.cache.length ∧ (alGet key c.cache).isNone then c.evictOne else c
  { c1 with cache := alPut key (value, now) c1.cache,
            access_times := alPut key now c1.access_times,
            access_counts := alPut key ((alGet key c1.access_counts).getD 0 + 1) c1.access_counts }

/-- One external `MemoryCache` operation, for trace-level statements. -/
inductive MemOp
  | get (key : String) (now : ℚ)
  | put (key : String) (value : VectorSearchResult) (now : ℚ)

def runMemOps (c : MemoryCache) : List MemOp → MemoryCache
  | [] => c
  | MemOp.get k t :: rest => runMemOps (c.get k t).1 rest
  | MemOp.put k v t :: rest => runMemOps (c.put k v t) rest

/-- The key sets of the three dicts coincide (in order) and are duplicate
free; true of every state reachable from `MemoryCache.init`. -/
def MemoryCache.WF (c : MemoryCache) : Prop :=
  c.access_times.map Prod.fst = c.cache.map Prod.fst ∧
  c.access_counts.map Prod.fst = c.cache.map Prod.fst ∧
  (c.cache.map Prod.fst).Nodup

/-! ## ThresholdPolicy (`SemanticCache._calculate_dynamic_threshold`) -/

/-- `SemanticCache._calculate_dynamic_threshold` (semantic_cache.py lines
253-329). `base` is `self.config.similarity_threshold`; `model_provider`
is accepted and ignored exactly as in the source. A falsy `parsed_jd`
(Python `None` or `{}`, here `none`) returns the base threshold before the
clamp is reached. -/
def calculateDynamicThreshold (base : ℚ) (parsed_jd : Option ParsedJD)
    (model_provider : String) (cache_size : Nat) : ℚ :=
  match parsed_jd with
  | none => base
  | some pjd =>
    let complexity_adjustment : ℚ :=
      if pjd.complexity = some "SIMPLE" then -0.05
      else if pjd.complexity = some "MODERATE" then -0.02
      else if pjd.complexity = some "COMPLEX" then 0.03
      else 0
    let job_level := pyUpper (pjd.job_level.getD "")
    let level_adjustment : ℚ :=
      if job_level = "EXECUTIVE" ∨ job_level = "SENIOR" then 0.04
      else if job_level = "ENTRY" then -0.03
      else 0
    let industry := pyUpper (pjd.industry_type.getD "")
    let industry_adjustment : ℚ :=
      if industry = "TECH" ∨ industry = "FINANCE" then -0.02
      else if industry = "CREATIVE" ∨ industry = "CONSULTING" then 0.03
      else 0
    let total_skills := pjd.required_skills.length + pjd.preferred_skills.length
    let skills_adjustment : ℚ :=
      if 10 ≤ total_skills then 0.02
      else if total_skills ≤ 3 then -0.02
      else 0
    let cache_adjustment : ℚ :=
      if cache_size < 100 then -0.05
      else if 5000 < cache_size then 0.02
      else 0
    let dynamic_threshold := base +
      (complexity_adjustment + level_adjustment + industry_adjustment +
       skills_adjustment + cache_adjustment)
    max 0.70 (min 0.95 dynamic_threshold)

/-! ## Quality scoring and cache keys (semantic_cache.py) -/

/-- `SemanticCache._calculate_quality_score` (lines 775-799). -/
def calculateQualityScore (content : String) (parsed_jd : ParsedJD) : ℚ :=
  let word_count := (pyWords content).length
  let score : ℚ := 1
  let score := if word_count < 200 then score - 0.2
               else if 400 < word_count then score - 0.1
               else score
  let company := pyLower (parsed_jd.company.getD "")
  let score := if company ≠ "" ∧ strContains (pyLower content) company then score + 0.1 else score
  let skills_mentioned :=
    (parsed_jd.skills.filter (fun sk => strContains (pyLower content) (pyLower sk))).length
  let score := if 3 ≤ skills_mentioned then score + 0.2
               else if 1 ≤ skills_mentioned then score + 0.1
               else score
  max 0 (min 1 score)

/-- The cleanup `_create_cache_key` applies to the company/role tokens. -/
def cleanToken (s : String) : String :=
  pyReplace (pyReplace (pyLower s) " " "_") "-" "_"

/-- `SemanticCache._create_cache_key` (lines 331-337). -/
def createCacheKey (cfg : CacheConfig) (company role content_hash : String) : String :=
  if cfg.company_partition_enabled then
    "semantic_cache:" ++ cleanToken company ++ ":" ++ cleanToken role ++ ":" ++ content_hash
  else
    "semantic_cache:" ++ content_hash

/-- `SemanticCache._content_hash` (lines 339-342). -/
def contentHash (jd_text model_provider model_name : String) : String :=
  sha256hex16 (jd_text ++ ":" ++ model_provider ++ ":" ++ model_name)

/-! ## Sorting helpers (Python `list.sort` / top-k retrieval) -/

/-- Stable insertion with respect to a strict "goes before" test. -/
def insertBefore {α : Type} (before : α → α → Bool) (x : α) : List α → List α
  | [] => [x]
  | y :: ys => if before x y then x :: y :: ys else y :: insertBefore before x ys

/-- Stable sort by a strict "goes before" test. -/
def sortListBy {α : Type} (before : α → α → Bool) (l : List α) : List α :=
  l.foldr (insertBefore before) []

/-- FAISS `IndexFlatIP.search`: all stored vectors scored by inner product
against the query, sorted descending, truncated to `k`. Ids are insertion
positions; `k` never exceeds `ntotal` at the call sites, so the `-1`
padding slots of the real API do not arise. -/
def faissSearch (vectors : List (List ℚ)) (query : List ℚ) (k : Nat) : List (ℚ × Nat) :=
  (sortListBy (fun a b => decide (b.1 < a.1))
    (vectors.enum.map (fun p => (dotQ query p.2, p.1)))).take k

/-! ## Metadata records for the index tiers -/

/-- Entry of `SemanticCache.faiss_id_map` (semantic_cache.py lines 746-754). -/
structure FaissMeta where
  cache_key : String
  company : String
  role : String
  model_provider : String
  model_name : String
  quality_score : ℚ
  created_at : ℚ
deriving DecidableEq, Repr

/-- `SemanticCache`'s in-process FAISS index plus its id map and counter. -/
structure FaissState where
  vectors : List (List ℚ) := []
  id_map : List (Nat × FaissMeta) := []
  id_counter : Nat := 0
deriving DecidableEq, Repr

/-- Entry of `VectorDatabase.faiss_id_map` (vector_database.py lines 579-588). -/
structure VdbFaissMeta where
  entry_id : String
  company : String
  role : String
  model_provider : String
  model_name : String
  quality_score : ℚ
  created_at : ℚ
  cost_usd : ℚ
deriving DecidableEq, Repr

structure VdbFaiss where
  vectors : List (List ℚ) := []
  id_map : List (Nat × VdbFaissMeta) := []
deriving DecidableEq, Repr

/-- The metadata dict stored with each ChromaDB document
(vector_database.py lines 517-532); `skills` is stored JSON-encoded and
decoded on read, modelled as the list itself. -/
structure ChromaMeta where
  entry_id : String
  company : String
  role : String
  model_provider : String
  model_name : String
  token_count : Nat
  cost_usd : ℚ
  quality_score : ℚ
  created_at : ℚ
  hit_count : Nat
  last_accessed : ℚ
  skills : List String
  word_count : Nat
  content_hash : String
deriving DecidableEq, Repr

/-- One ChromaDB record: id, raw document, the embedding Chroma computed for
it at `add` time, and the metadata dict. -/
structure ChromaDoc where
  id : String
  document : String
  embedding : List ℚ
  meta : ChromaMeta
deriving DecidableEq, Repr

/-- `VectorDatabase` state: circuit breaker, optional memory tier, optional
FAISS acceleration, and the ChromaDB collection. -/
structure VectorDBState where
  config : VectorDBConfig
  breaker : CircuitBreaker
  memory_cache : Option MemoryCache
  faiss : Option VdbFaiss := none
  collection : List ChromaDoc := []
deriving DecidableEq, Repr

/-! ## VectorDatabase operations -/

/-- Python truthiness of an `Optional[str]`: `None` and `""` are falsy. -/
def truthyS : Option String → Bool
  | none => false
  | some s => s ≠ ""

/-- `VectorDatabase._generate_cache_key` (line 614-616): hourly buckets via
`int(time.time() / 3600)` (`now` is nonnegative, so floor = truncation). -/
def genCacheKey (company role model_provider : String) (now : ℚ) : String :=
  pyLower company ++ ":" ++ pyLower role ++ ":" ++ model_provider ++ ":" ++ toString ⌊now / 3600⌋

/-- `VectorDatabase._search_memory_cache` (lines 697-718). The stored
result's similarity is compared against the threshold as-is; no embedding
comparison against the current query happens (the source comments "could be
improved with actual embedding comparison"). -/
def searchMemoryCache (mc : Option MemoryCache) (now : ℚ)
    (jd_text model_provider model_name : String) (company role : Option String)
    (threshold : ℚ) : Option MemoryCache × List VectorSearchResult :=
  match mc with
  | none => (none, [])
  | some m =>
    if truthyS company = false ∨ truthyS role = false then (some m, [])
    else
      let key := genCacheKey (company.getD "") (role.getD "") model_provider now
      match m.get key now with
      | (m', some r) =>
        if r.entry.model_provider = model_provider ∧ r.entry.model_name = model_name then
          if threshold ≤ r.similarity then (some m', [r]) else (some m', [])
        else (some m', [])
      | (m', none) => (some m', [])

/-- CacheEntry reconstruction in `_search_faiss_index` (lines 763-777):
content/embedding/skills left empty, to be loaded on demand. -/
def entryFromVdbFaissMeta (md : VdbFaissMeta) : CacheEntry :=
  { content := "", embedding := [], company := md.company, role := md.role, skills := [],
    model_provider := md.model_provider, model_name := md.model_name, token_count := 0,
    cost_usd := md.cost_usd, created_at := md.created_at, hit_count := 0,
    last_accessed := 0, quality_score := md.quality_score }

/-- `VectorDatabase._search_faiss_index` (lines 720-793). `embedOpt` is
`_generate_embedding_for_faiss`, which swallows failures into `None`. -/
def vdbSearchFaiss (f : VdbFaiss) (embedOpt : String → Option (List ℚ)) (max_results : Nat)
    (jd_text model_provider model_name : String) (company role : Option String)
    (threshold : ℚ) : List VectorSearchResult :=
  if f.vectors.length = 0 then []
  else
    match embedOpt jd_text with
    | none => []
    | some q =>
      let k := min (max_results * 2) f.vectors.length
      let cands := faissSearch f.vectors q k
      let results := cands.filterMap (fun c =>
        match alGet c.2 f.id_map with
        | none => none
        | some md =>
          if md.model_provider ≠ model_provider then none
          else if md.model_name ≠ model_name then none
          else if truthyS company ∧ pyLower md.company ≠ pyLower (company.getD "") then none
          else if truthyS role ∧ pyLower md.role ≠ pyLower (role.getD "") then none
          else if c.1 < threshold then none
          else some (⟨entryFromVdbFaissMeta md, c.1, 1 - c.1⟩ : VectorSearchResult))
      (sortListBy (fun a b => decide (b.similarity < a.similarity)) results).take max_results

/-- CacheEntry reconstruction in `_search_chromadb_sync` (lines 852-866). -/
def entryFromChromaMeta (m : ChromaMeta) : CacheEntry :=
  { content := "", embedding := [], company := m.company, role := m.role, skills := m.skills,
    model_provider := m.model_provider, model_name := m.model_name,
    token_count := m.token_count, cost_usd := m.cost_usd, created_at := m.created_at,
    hit_count := m.hit_count, last_accessed := 0, quality_score := m.quality_score }

/-- `VectorDatabase._search_chromadb_sync` (lines 813-883): equality
`where`-filter on provider/model (and company/role when truthy), cosine
distances on Chroma's stored embeddings, top `n_results`, similarity
`= 1 - distance`, threshold filter, sorted by similarity descending. -/
def searchChromadbSync (coll : List ChromaDoc) (embedOpt : String → Option (List ℚ))
    (max_results : Nat) (jd_text model_provider model_name : String)
    (company role : Option String) (threshold : ℚ) : List VectorSearchResult :=
  let filtered := coll.filter (fun d =>
    d.meta.model_provider == model_provider && d.meta.model_name == model_name &&
    (!truthyS company || d.meta.company == company.getD "") &&
    (!truthyS role || d.meta.role == role.getD ""))
  let q := (embedOpt jd_text).getD []
  let scored := filtered.map (fun d => (d, 1 - dotQ q d.embedding))
  let top := (sortListBy (fun a b => decide (a.2 < b.2)) scored).take max_results
  let results := top.filterMap (fun p =>
    let similarity := 1 - p.2
    if similarity < threshold then none
    else some (⟨entryFromChromaMeta p.1.meta, similarity, p.2⟩ : VectorSearchResult))
  sortListBy (fun a b => decide (b.similarity < a.similarity)) results

/-- `VectorDatabase._search_chromadb` (lines 795-811): the sync search runs
under the circuit breaker; a rejected or failed call is caught and becomes
an empty result. `io_ok` models whether the underlying ChromaDB call would
succeed. -/
def searchChromadb (cb : CircuitBreaker) (now : ℚ) (io_ok : Bool) (coll : List ChromaDoc)
    (embedOpt : String → Option (List ℚ)) (max_results : Nat)
    (jd_text model_provider model_name : String) (company role : Option String)
    (threshold : ℚ) : CircuitBreaker × List VectorSearchResult :=
  match cb.call now io_ok with
  | (cb', CBOutcome.returned) =>
    (cb', searchChromadbSync coll embedOpt max_results jd_text model_provider model_name
            company role threshold)
  | (cb', _) => (cb', [])

/-- `VectorDatabase.search_similar_entries` (lines 618-695): memory tier,
then FAISS tier, then breaker-guarded ChromaDB; the first two tiers feed the
memory cache on a hit. `similarity_threshold or config.similarity_threshold`
is Python-falsy on `0`. -/
def searchSimilarEntries (v : VectorDBState) (embedOpt : String → Option (List ℚ))
    (now : ℚ) (io_ok : Bool) (jd_text model_provider model_name : String)
    (company role : Option String) (similarity_threshold : Option ℚ) :
    VectorDBState × List VectorSearchResult :=
  let threshold := match similarity_threshold with
    | some t => if t = 0 then v.config.similarity_threshold else t
    | none => v.config.similarity_threshold
  let memStep := searchMemoryCache v.memory_cache now jd_text model_provider model_name
                   company role threshold
  match memStep with
  | (mc1, r :: rs) => ({v with memory_cache := mc1}, r :: rs)
  | (mc1, []) =>
    let faiss_results := match v.faiss with
      | some f => vdbSearchFaiss f embedOpt v.config.max_results jd_text model_provider
                    model_name company role threshold
      | none => []
    match faiss_results with
    | r :: rs =>
      let mc2 := match mc1, truthyS company && truthyS role with
        | some m, true =>
          some (m.put (genCacheKey (company.getD "") (role.getD "") model_provider now) r now)
        | mc, _ => mc
      ({v with memory_cache := mc2}, r :: rs)
    | [] =>
      let chromaStep := searchChromadb v.breaker now io_ok v.collection embedOpt
        v.config.max_results jd_text model_provider model_name company role threshold
      match chromaStep with
      | (cb', cres) =>
        let mc3 := match cres, mc1, truthyS company && truthyS role with
          | r :: _, some m, true =>
            some (m.put (genCacheKey (company.getD "") (role.getD "") model_provider now) r now)
          | _, mc, _ => mc
        ({v with breaker := cb', memory_cache := mc3}, cres)

/-- `VectorDatabase._add_cache_entry_sync` (lines 510-563): append to the
ChromaDB collection, then to the FAISS index (when present and the embedding
call succeeds), then put a similarity-1.0 `VectorSearchResult` into the
memory cache under the hourly key. -/
def addCacheEntrySync (v : VectorDBState) (embedOpt : String → Option (List ℚ)) (now : ℚ)
    (entry_id : String) (entry : CacheEntry) (jd_text : String) : VectorDBState :=
  let meta : ChromaMeta :=
    { entry_id := entry_id, company := entry.company, role := entry.role,
      model_provider := entry.model_provider, model_name := entry.model_name,
      token_count := entry.token_count, cost_usd := entry.cost_usd,
      quality_score := entry.quality_score, created_at := entry.created_at,
      hit_count := entry.hit_count, last_accessed := entry.last_accessed,
      skills := entry.skills, word_count := (pyWords entry.content).length,
      content_hash := sha256hex16 entry.content }
  let doc : ChromaDoc :=
    { id := entry_id, document := jd_text, embedding := (embedOpt jd_text).getD [],
      meta := meta }
  let v1 := {v with collection := v.collection ++ [doc]}
  let v2 := match v1.faiss, embedOpt jd_text with
    | some f, some e =>
      let md : VdbFaissMeta :=
        { entry_id := entry_id, company := entry.company, role := entry.role,
          model_provider := entry.model_provider, model_name := entry.model_name,
          quality_score := entry.quality_score, created_at := entry.created_at,
          cost_usd := entry.cost_usd }
      let f' : VdbFaiss :=
        { vectors := f.vectors ++ [e], id_map := alPut f.vectors.length md f.id_map }
      {v1 with faiss := some f'}
    | _, _ => v1
  match v2.memory_cache with
  | some m =>
    let m' := m.put (genCacheKey entry.company entry.role entry.model_provider now)
      (⟨entry, 1, 0⟩ : VectorSearchResult) now
    {v2 with memory_cache := some m'}
  | none => v2

/-- `VectorDatabase.add_cache_entry` (lines 474-508): the sync insert under
the circuit breaker; any failure is caught and reported as `false`. -/
def addCacheEntry (v : VectorDBState) (embedOpt : String → Option (List ℚ)) (now : ℚ)
    (io_ok : Bool) (entry_id : String) (entry : CacheEntry) (jd_text : String) :
    VectorDBState × Bool :=
  match v.breaker.call now io_ok with
  | (cb', CBOutcome.returned) =>
    (addCacheEntrySync {v with breaker := cb'} embedOpt now entry_id entry jd_text, true)
  | (cb', _) => ({v with breaker := cb'}, false)

/-! ## SemanticCache state and operations -/

/-- `SemanticCache` state. `redis` models the key/value tier: the Redis
database when `redis_client = true`, or the `_memory_cache` fallback dict
when `false` (the source stores JSON round-tripped copies in Redis; the
in-memory fallback aliases the live objects, a difference no claim below
depends on). TTLs of `setex` are not modelled. -/
structure SemanticCacheState where
  config : CacheConfig
  stats : CacheStats := {}
  redis_client : Bool := true
  redis : List (String × CacheEntry) := []
  faiss : Option FaissState := some {}
  vector_db : Option VectorDBState := none
deriving DecidableEq, Repr

/-- `company`/`role` extraction in `get_cached_response` (lines 370-371):
`parsed_jd.get("company", "unknown") if parsed_jd else "unknown"`. -/
def companyOf (parsed_jd : Option ParsedJD) : String :=
  match parsed_jd with
  | some p => p.company.getD "unknown"
  | none => "unknown"

def roleOf (parsed_jd : Option ParsedJD) : String :=
  match parsed_jd with
  | some p => p.role.getD "unknown"
  | none => "unknown"

/-- The loop body of `_find_best_match` (lines 445-488), identical in the
Redis branch and the in-memory branch: skip on provider/model mismatch, skip
below `min_quality_score`, track the best entry whose dot-product similarity
strictly improves the running best and meets the static config threshold. -/
def considerEntry (cfg : CacheConfig) (query : List ℚ) (model_provider model_name : String)
    (acc : Option CacheEntry × ℚ) (e : CacheEntry) : Option CacheEntry × ℚ :=
  if e.model_provider ≠ model_provider ∨ e.model_name ≠ model_name then acc
  else if e.quality_score < cfg.min_quality_score then acc
  else
    let similarity := dotQ query e.embedding
    if acc.2 < similarity ∧ cfg.similarity_threshold ≤ similarity then (some e, similarity)
    else acc

/-- `redis_client.keys(pattern)` for the glob patterns the source builds:
all of them are a literal prefix followed by `*`. -/
def scanValues (store : List (String × CacheEntry)) (pat : String) : List CacheEntry :=
  (store.filter (fun kv => strStartsWith kv.1 pat)).map Prod.snd

/-- The company/role cleanup used when building the search patterns
(line 438) — unlike `_create_cache_key` it does not replace hyphens. -/
def scanToken (s : String) : String := pyReplace (pyLower s) " " "_"

/-- The candidate-selection loop of `_find_best_match`: Redis branch with
its three glob patterns and the `> 0.9` early break, or the in-memory
fallback scan. Returns `(best_match, best_similarity)`. -/
def bestCandidate (cfg : CacheConfig) (store : List (String × CacheEntry))
    (redis_client : Bool) (query : List ℚ)
    (company role model_provider model_name : String) : Option CacheEntry × ℚ :=
  let step := considerEntry cfg query model_provider model_name
  if redis_client then
    let p1 := "semantic_cache:" ++ scanToken company ++ ":" ++ scanToken role ++ ":"
    let p2 := "semantic_cache:" ++ scanToken company ++ ":"
    let p3 := "semantic_cache:"
    let a1 := (scanValues store p1).foldl step (none, 0)
    if a1.1.isSome ∧ (0.9 : ℚ) < a1.2 then a1
    else
      let a2 := (scanValues store p2).foldl step a1
      if a2.1.isSome ∧ (0.9 : ℚ) < a2.2 then a2
      else (scanValues store p3).foldl step a2
  else
    store.foldl (fun a kv => step a kv.2) (none, 0)

/-- `SemanticCache._find_best_match` (lines 422-500). Pattern search with
early break once a > 0.9 match is found; afterwards the running-average
update divides by `stats.cache_hits`, which raises `ZeroDivisionError`
when a match is found before any hit was ever recorded — the surrounding
handler then returns `None`, losing the match. -/
def findBestMatch (cfg : CacheConfig) (stats : CacheStats)
    (store : List (String × CacheEntry)) (redis_client : Bool) (query : List ℚ)
    (company role model_provider model_name : String) :
    CacheStats × Option CacheEntry :=
  match bestCandidate cfg store redis_client query company role model_provider model_name with
  | (some e, best_similarity) =>
    if stats.cache_hits = 0 then (stats, none)
    else
      ({stats with average_similarity :=
          (stats.average_similarity * ((stats.cache_hits : ℚ) - 1) + best_similarity) /
            (stats.cache_hits : ℚ)},
       some e)
  | (none, _) => (stats, none)

/-- `SemanticCache._find_best_match_faiss` (lines 554-647). The filter chain
reads `self.config.min_quality_threshold` — an attribute `CacheConfig` does
not define — so the first candidate that passes the provider/model filters
raises `AttributeError`; the function's handler catches it and returns
`None`. If no candidate reaches that line the loop ends with
`best_match = None`. Either way the result is `none`; the preference-bonus
code below the quality check is unreachable. -/
def findBestMatchFaiss (f : FaissState) (cfg : CacheConfig) (query : List ℚ)
    (company role model_provider model_name : String)
    (similarity_threshold : Option ℚ) : Option CacheEntry :=
  if f.vectors.length = 0 then none
  else
    let k := min 10 f.vectors.length
    let results := faissSearch f.vectors query k
    if results.any (fun r =>
        match alGet r.2 f.id_map with
        | some md => md.model_provider == model_provider && md.model_name == model_name
        | none => false)
    then none  -- AttributeError on `min_quality_threshold`, caught by the handler
    else none  -- loop completes without a candidate

/-- `SemanticCache._get_content_from_redis` (lines 649-671): recompute the
cache key from the query text and the entry's identity, return the stored
content. (When the Redis client is present but the key is absent, the
source falls through to `self._memory_cache`, an attribute that only exists
in the fallback configuration; the resulting `AttributeError` is caught and
becomes `None`, which coincides with the plain lookup miss modelled here.) -/
def getContentFromRedis (s : SemanticCacheState) (entry : CacheEntry) (jd_text : String) :
    Option String :=
  let ch := contentHash jd_text entry.model_provider entry.model_name
  let key := createCacheKey s.config entry.company entry.role ch
  (alGet key s.redis).map (fun e => e.content)

/-- `SemanticCache._find_best_match_vector_db` (lines 502-552): delegate to
the vector database's tiered search, take the first (best) result, update
the running average with the `max(1, hits)` guard, resolve empty content
from the Redis tier — treating a resolution miss as an overall miss. -/
def findBestMatchVectorDb (embed : String → Except String (List ℚ))
    (s : SemanticCacheState) (now : ℚ) (io_ok : Bool)
    (jd_text company role model_provider model_name : String) (dyn : ℚ) :
    SemanticCacheState × Option CacheEntry :=
  match s.vector_db with
  | none => (s, none)
  | some v =>
    let res := searchSimilarEntries v (fun t => (embed t).toOption) now io_ok jd_text
      model_provider model_name (some company) (some role) (some dyn)
    match res with
    | (v', []) => ({s with vector_db := some v'}, none)
    | (v', best :: _) =>
      let st := s.stats
      let st' := {st with average_similarity :=
        (st.average_similarity * ((st.cache_hits : ℚ) - 1) + best.similarity) /
          ((max 1 st.cache_hits : Nat) : ℚ)}
      let s' := {s with vector_db := some v', stats := st'}
      if best.entry.content = "" then
        match getContentFromRedis s' best.entry jd_text with
        | some c => (s', some {best.entry with content := c})
        | none => (s', none)
      else (s', some best.entry)

/-- `SemanticCache._update_cache_entry` (lines 801-822): the hit-count
update recomputes a key by hashing `entry.content` — not the original
`jd_text` that `cache_response` hashed — and writes the entry there. -/
def updateCacheEntry (s : SemanticCacheState) (entry : CacheEntry) : SemanticCacheState :=
  let ch := sha256hex16 (entry.content ++ ":" ++ entry.model_provider ++ ":" ++ entry.model_name)
  let key := createCacheKey s.config entry.company entry.role ch
  {s with redis := alPut key entry s.redis}

/-- The `CacheEntry` `cache_response` builds (lines 702-717). -/
def builtEntry (emb : List ℚ) (now : ℚ) (response_content : String) (parsed_jd : ParsedJD)
    (model_provider model_name : String) (token_count : Nat) (cost_usd : ℚ) : CacheEntry :=
  { content := response_content, embedding := emb,
    company := parsed_jd.company.getD "unknown", role := parsed_jd.role.getD "unknown",
    skills := parsed_jd.skills, model_provider := model_provider, model_name := model_name,
    token_count := token_count, cost_usd := cost_usd, created_at := now, hit_count := 0,
    last_accessed := now,
    quality_score := calculateQualityScore response_content parsed_jd }

/-- The key `cache_response` stores under (lines 719-721). -/
def storeKey (cfg : CacheConfig) (jd_text : String) (parsed_jd : ParsedJD)
    (model_provider model_name : String) : String :=
  createCacheKey cfg (parsed_jd.company.getD "unknown") (parsed_jd.role.getD "unknown")
    (contentHash jd_text model_provider model_name)

/-- `SemanticCache.cache_response` (lines 673-773): build the entry
(computing its quality score), then write it unconditionally to the
Redis/memory tier, the FAISS index, and the vector database; `entry_id` is
the fresh uuid the vector database generates, and `io_ok` whether its
backend accepts the write. Returns the source's boolean. -/
def cacheResponse (embed : String → Except String (List ℚ)) (s : SemanticCacheState)
    (now : ℚ) (io_ok : Bool) (entry_id : String) (jd_text response_content : String)
    (parsed_jd : ParsedJD) (model_provider model_name : String)
    (token_count : Nat) (cost_usd : ℚ) : SemanticCacheState × Bool :=
  match embed jd_text with
  | .error _ => (s, false)
  | .ok emb =>
    let entry := builtEntry emb now response_content parsed_jd model_provider model_name
      token_count cost_usd
    let key := storeKey s.config jd_text parsed_jd model_provider model_name
    let s1 := {s with redis := alPut key entry s.redis}
    let s2 := match s1.faiss with
      | some f =>
        let md : FaissMeta :=
          { cache_key := key, company := entry.company, role := entry.role,
            model_provider := entry.model_provider, model_name := entry.model_name,
            quality_score := entry.quality_score, created_at := entry.created_at }
        let f' : FaissState :=
          { vectors := f.vectors ++ [entry.embedding],
            id_map := alPut f.id_counter md f.id_map,
            id_counter := f.id_counter + 1 }
        {s1 with faiss := some f'}
      | none => s1
    let s3 := match s2.vector_db with
      | some v =>
        let v' := (addCacheEntry v (fun t => (embed t).toOption) now io_ok entry_id entry
          jd_text).1
        {s2 with vector_db := some v'}
      | none => s2
    (s3, true)

/-- The tier-probing section of `get_cached_response` (lines 377-396):
FAISS index first, then the vector database, then the Redis scan, each only
when the previous tier produced nothing. -/
def probeTiers (embed : String → Except String (List ℚ)) (s0 : SemanticCacheState)
    (now : ℚ) (io_ok : Bool) (jd_text model_provider model_name : String)
    (parsed_jd : Option ParsedJD) (query : List ℚ) :
    SemanticCacheState × Option CacheEntry :=
  let company := companyOf parsed_jd
  let role := roleOf parsed_jd
  let cache_size := match s0.faiss with
    | some f => f.vectors.length
    | none => 0
  let dyn := calculateDynamicThreshold s0.config.similarity_threshold parsed_jd
    model_provider cache_size
  let m1 : Option CacheEntry :=
    match s0.faiss with
    | some f =>
      if 0 < f.vectors.length then
        findBestMatchFaiss f s0.config query company role model_provider model_name (some dyn)
      else none
    | none => none
  let step2 : SemanticCacheState × Option CacheEntry :=
    if m1.isNone then
      match s0.vector_db with
      | some _ => findBestMatchVectorDb embed s0 now io_ok jd_text company role
          model_provider model_name dyn
      | none => (s0, m1)
    else (s0, m1)
  if step2.2.isNone then
    let fb := findBestMatch step2.1.config step2.1.stats step2.1.redis step2.1.redis_client
      query company role model_provider model_name
    ({step2.1 with stats := fb.1}, fb.2)
  else step2

/-- `SemanticCache.get_cached_response` (lines 344-420): count the request,
embed the query (an embedding failure is caught by the outer handler and
becomes a miss), probe the tiers, and on a hit bump the entry's counters,
rewrite it through `_update_cache_entry`, and update the statistics. -/
def getCachedResponse (embed : String → Except String (List ℚ)) (s : SemanticCacheState)
    (now : ℚ) (io_ok : Bool) (jd_text model_provider model_name : String)
    (parsed_jd : Option ParsedJD) : SemanticCacheState × Option CacheEntry :=
  let s0 := {s with stats := {s.stats with total_requests := s.stats.total_requests + 1}}
  match embed jd_text with
  | .error _ =>
    ({s0 with stats := {s0.stats with cache_misses := s0.stats.cache_misses + 1}}, none)
  | .ok query =>
    match probeTiers embed s0 now io_ok jd_text model_provider model_name parsed_jd query with
    | (s3, some e) =>
      let e' := {e with hit_count := e.hit_count + 1, last_accessed := now}
      let s4 := updateCacheEntry s3 e'
      let st := s4.stats
      let st := {st with cache_hits := st.cache_hits + 1,
                         total_cost_saved := st.total_cost_saved + e'.cost_usd,
                         total_tokens_saved := st.total_tokens_saved + e'.token_count}
      ({s4 with stats := updateHitRatio st}, some e')
    | (s3, none) =>
      let st := {s3.stats with cache_misses := s3.stats.cache_misses + 1}
      ({s3 with stats := updateHitRatio st}, none)

/-! # Lemmas

## Association lists -/

section AList

variable {κ α : Type} [DecidableEq κ]

theorem alGet_alPut_self (k : κ) (v : α) (l : List (κ × α)) :
    alGet k (alPut k v l) = some v := by
  induction l with
  | nil => simp [alPut, alGet]
  | cons hd tl ih =>
    by_cases h : hd.1 = k
    · simp [alPut, alGet, h]
    · simp [alPut, alGet, h, ih]

theorem alGet_alPut_ne (k k' : κ) (v : α) (l : List (κ × α)) (h : k' ≠ k) :
    alGet k' (alPut k v l) = alGet k' l := by
  have hkk : k ≠ k' := fun hh => h hh.symm
  induction l with
  | nil => simp [alPut, alGet, hkk]
  | cons hd tl ih =>
    by_cases hh : hd.1 = k
    · simp [alPut, alGet, hh, hkk]
    · by_cases hk' : hd.1 = k'
      · simp [alPut, alGet, hh, hk', h]
      · simp [alPut, alGet, hh, hk', ih]

theorem alGet_isSome_iff (k : κ) (l : List (κ × α)) :
    (alGet k l).isSome ↔ k ∈ l.map Prod.fst := by
  induction l with
  | nil => simp [alGet]
  | cons hd tl ih =>
    by_cases h : hd.1 = k
    · simp [alGet, h]
    · have h' : k ≠ hd.1 := fun hh => h hh.symm
      simp [alGet, h, h', ih]

theorem alGet_eq_none_iff (k : κ) (l : List (κ × α)) :
    alGet k l = none ↔ k ∉ l.map Prod.fst := by
  rw [← alGet_isSome_iff, Option.isSome_iff_ne_none]
  tauto

theorem length_alPut_of_mem (k : κ) (v : α) (l : List (κ × α))
    (h : k ∈ l.map Prod.fst) : (alPut k v l).length = l.length := by
  induction l with
  | nil => simp at h
  | cons hd tl ih =>
    by_cases hh : hd.1 = k
    · simp [alPut, hh]
    · simp only [List.map_cons, List.mem_cons] at h
      rcases h with h | h
      · exact absurd h.symm hh
      · simp [alPut, hh, ih h]

theorem length_alPut_of_not_mem (k : κ) (v : α) (l : List (κ × α))
    (h : k ∉ l.map Prod.fst) : (alPut k v l).length = l.length + 1 := by
  induction l with
  | nil => simp [alPut]
  | cons hd tl ih =>
    simp only [List.map_cons, List.mem_cons] at h
    push_neg at h
    have hh : hd.1 ≠ k := fun hx => h.1 hx.symm
    simp [alPut, hh, ih h.2]

theorem map_fst_alPut_of_mem (k : κ) (v : α) (l : List (κ × α))
    (h : k ∈ l.map Prod.fst) : (alPut k v l).map Prod.fst = l.map Prod.fst := by
  induction l with
  | nil => simp at h
  | cons hd tl ih =>
    by_cases hh : hd.1 = k
    · simp [alPut, hh]
    · simp only [List.map_cons, List.mem_cons] at h
      rcases h with h | h
      · exact absurd h.symm hh
      · simp [alPut, hh, ih h]

theorem map_fst_alPut_of_not_mem (k : κ) (v : α) (l : List (κ × α))
    (h : k ∉ l.map Prod.fst) : (alPut k v l).map Prod.fst = l.map Prod.fst ++ [k] := by
  induction l with
  | nil => simp [alPut]
  | cons hd tl ih =>
    simp only [List.map_cons, List.mem_cons] at h
    push_neg at h
    have hh : hd.1 ≠ k := fun hx => h.1 hx.symm
    simp [alPut, hh, ih h.2]

theorem map_fst_alErase (k : κ) (l : List (κ × α)) :
    (alErase k l).map Prod.fst = (l.map Prod.fst).erase k := by
  induction l with
  | nil => simp [alErase]
  | cons hd tl ih =>
    by_cases hh : hd.1 = k
    · simp [alErase, hh, List.erase_cons_head]
    · rw [alErase]
      simp only [if_neg hh, List.map_cons, ih, List.erase_cons_tail]
      simp [hh]

theorem length_alErase_of_mem (k : κ) (l : List (κ × α))
    (h : k ∈ l.map Prod.fst) : (alErase k l).length + 1 = l.length := by
  induction l with
  | nil => simp at h
  | cons hd tl ih =>
    by_cases hh : hd.1 = k
    · simp [alErase, hh]
    · simp only [List.map_cons, List.mem_cons] at h
      rcases h with h | h
      · exact absurd h.symm hh
      · simp only [alErase, if_neg hh, List.length_cons]
        rw [← ih h]

theorem argminBy_mem {α β : Type} [LinearOrder β] (f : α → β) (l : List α) (x : α)
    (h : argminBy f l = some x) : x ∈ l := by
  induction l with
  | nil => simp [argminBy] at h
  | cons hd tl ih =>
    rw [argminBy] at h
    cases hm : argminBy f tl with
    | none =>
      rw [hm] at h
      simp only [] at h
      obtain rfl : hd = x := Option.some.inj h
      exact List.mem_cons_self _ _
    | some y =>
      rw [hm] at h
      simp only [] at h
      by_cases hle : f hd ≤ f y
      · rw [if_pos hle] at h
        obtain rfl : hd = x := Option.some.inj h
        exact List.mem_cons_self _ _
      · rw [if_neg hle] at h
        obtain rfl : y = x := Option.some.inj h
        exact List.mem_cons_of_mem _ (ih hm)

theorem argminBy_isSome {α β : Type} [LinearOrder β] (f : α → β) (l : List α)
    (h : l ≠ []) : (argminBy f l).isSome := by
  cases l with
  | nil => exact absurd rfl h
  | cons hd tl =>
    rw [argminBy]
    cases argminBy f tl with
    | none => simp
    | some y => by_cases hle : f hd ≤ f y <;> simp [hle]

/-- `argminBy` (Python `min(xs, key=f)`) returns an element whose key is
minimal over the whole list. -/
theorem argminBy_le {α β : Type} [LinearOrder β] (f : α → β) (l : List α) :
    ∀ x, argminBy f l = some x → ∀ y ∈ l, f x ≤ f y := by
  induction l with
  | nil => intro x h; simp [argminBy] at h
  | cons hd tl ih =>
    intro x h y hy
    rw [argminBy] at h
    cases hm : argminBy f tl with
    | none =>
      rw [hm] at h
      simp only [] at h
      obtain rfl : hd = x := Option.some.inj h
      have htl : tl = [] := by
        cases tl with
        | nil => rfl
        | cons a b =>
          have hs := argminBy_isSome f (a :: b) (by simp)
          rw [hm] at hs
          simp at hs
      subst htl
      obtain rfl : y = hd := by simpa using hy
      exact le_refl _
    | some z =>
      rw [hm] at h
      simp only [] at h
      by_cases hle : f hd ≤ f z
      · rw [if_pos hle] at h
        obtain rfl : hd = x := Option.some.inj h
        rcases List.mem_cons.mp hy with h1 | h1
        · subst h1; exact le_refl _
        · exact le_trans hle (ih z hm y h1)
      · rw [if_neg hle] at h
        obtain rfl : z = x := Option.some.inj h
        rcases List.mem_cons.mp hy with h1 | h1
        · subst h1; exact le_of_not_le hle
        · exact ih z hm y h1

end AList

/-! ## MemoryCache: bounded size and frame lemmas -/

theorem MemoryCache.init_WF (n : Nat) (p : String) : (MemoryCache.init n p).WF := by
  refine ⟨rfl, rfl, ?_⟩
  simp [MemoryCache.init]

theorem MemoryCache.get_cache (c : MemoryCache) (k : String) (t : ℚ) :
    (c.get k t).1.cache = c.cache := by
  unfold MemoryCache.get
  cases alGet k c.cache with
  | none => rfl
  | some v => rfl

theorem MemoryCache.get_max_size (c : MemoryCache) (k : String) (t : ℚ) :
    (c.get k t).1.max_size = c.max_size := by
  unfold MemoryCache.get
  cases alGet k c.cache with
  | none => rfl
  | some v => rfl

theorem MemoryCache.get_WF (c : MemoryCache) (k : String) (t : ℚ) (h : c.WF) :
    (c.get k t).1.WF := by
  obtain ⟨h1, h2, h3⟩ := h
  unfold MemoryCache.get
  cases hg : alGet k c.cache with
  | none => exact ⟨h1, h2, h3⟩
  | some v =>
    obtain ⟨v', t'⟩ := v
    have hk : k ∈ c.cache.map Prod.fst := by
      rw [← alGet_isSome_iff, hg]; rfl
    refine ⟨?_, ?_, h3⟩
    · rw [map_fst_alPut_of_mem _ _ _ (h1 ▸ hk), h1]
    · rw [map_fst_alPut_of_mem _ _ _ (h2 ▸ hk), h2]

theorem MemoryCache.evictOne_max_size (c : MemoryCache) :
    c.evictOne.max_size = c.max_size := by
  unfold MemoryCache.evictOne
  split
  · rfl
  · split <;> rfl

theorem MemoryCache.put_max_size (c : MemoryCache) (k : String) (v : VectorSearchResult)
    (t : ℚ) : (c.put k v t).max_size = c.max_size := by
  unfold MemoryCache.put
  split
  · exact c.evictOne_max_size
  · rfl

/-- The record produced by erasing key `k0` from every dict of `c`. -/
theorem MemoryCache.erased_spec (c : MemoryCache) (k0 : String)
    (h1 : c.access_times.map Prod.fst = c.cache.map Prod.fst)
    (h2 : c.access_counts.map Prod.fst = c.cache.map Prod.fst)
    (hkmem : k0 ∈ c.cache.map Prod.fst) :
    let c' : MemoryCache :=
      { c with cache := alErase k0 c.cache, access_times := alErase k0 c.access_times,
               access_counts := alErase k0 c.access_counts }
    c'.cache.map Prod.fst = (c.cache.map Prod.fst).erase k0 ∧
    c'.access_times.map Prod.fst = (c.cache.map Prod.fst).erase k0 ∧
    c'.access_counts.map Prod.fst = (c.cache.map Prod.fst).erase k0 ∧
    c'.cache.length + 1 = c.cache.length ∧
    c'.max_size = c.max_size := by
  refine ⟨map_fst_alErase _ _, ?_, ?_, length_alErase_of_mem _ _ hkmem, rfl⟩
  · rw [map_fst_alErase, h1]
  · rw [map_fst_alErase, h2]

/-- `_evict_one` on a well-formed nonempty cache removes exactly the chosen
key: afterwards the key lists are `keys.erase k0` and the length dropped by
one. -/
theorem MemoryCache.evictOne_spec (c : MemoryCache) (h : c.WF) (hne : c.cache ≠ []) :
    ∃ k0, k0 ∈ c.cache.map Prod.fst ∧
      c.evictOne.cache.map Prod.fst = (c.cache.map Prod.fst).erase k0 ∧
      c.evictOne.access_times.map Prod.fst = (c.cache.map Prod.fst).erase k0 ∧
      c.evictOne.access_counts.map Prod.fst = (c.cache.map Prod.fst).erase k0 ∧
      c.evictOne.cache.length + 1 = c.cache.length ∧
      c.evictOne.max_size = c.max_size := by
  obtain ⟨h1, h2, h3⟩ := h
  have htne : c.access_times ≠ [] := by
    intro hx
    rw [hx] at h1
    exact hne (by simpa using h1.symm)
  have hcne : c.access_counts ≠ [] := by
    intro hx
    rw [hx] at h2
    exact hne (by simpa using h2.symm)
  unfold MemoryCache.evictOne
  rw [if_neg hne]
  by_cases hLRU : c.eviction_policy = "LRU"
  · obtain ⟨kv, hkv⟩ := Option.isSome_iff_exists.mp (argminBy_isSome (fun kv => kv.2) _ htne)
    have hmem : kv ∈ c.access_times := argminBy_mem _ _ _ hkv
    have hkmem : kv.1 ∈ c.cache.map Prod.fst := by
      rw [← h1]
      exact List.mem_map_of_mem Prod.fst hmem
    rw [if_pos hLRU, hkv]
    exact ⟨kv.1, hkmem, c.erased_spec kv.1 h1 h2 hkmem⟩
  · by_cases hLFU : c.eviction_policy = "LFU"
    · obtain ⟨kv, hkv⟩ := Option.isSome_iff_exists.mp (argminBy_isSome (fun kv => kv.2) _ hcne)
      have hmem : kv ∈ c.access_counts := argminBy_mem _ _ _ hkv
      have hkmem : kv.1 ∈ c.cache.map Prod.fst := by
        rw [← h2]
        exact List.mem_map_of_mem Prod.fst hmem
      rw [if_neg hLRU, if_pos hLFU, hkv]
      exact ⟨kv.1, hkmem, c.erased_spec kv.1 h1 h2 hkmem⟩
    · obtain ⟨kv, hkv⟩ := Option.isSome_iff_exists.mp
        (argminBy_isSome (fun kv => kv.2.2) _ hne)
      have hmem : kv ∈ c.cache := argminBy_mem _ _ _ hkv
      have hkmem : kv.1 ∈ c.cache.map Prod.fst := List.mem_map_of_mem Prod.fst hmem
      rw [if_neg hLRU, if_neg hLFU, hkv]
      exact ⟨kv.1, hkmem, c.erased_spec kv.1 h1 h2 hkmem⟩

/-- `_evict_one` removes exactly the policy-chosen victim, as Python
`min(dict.keys(), key=...)` selects it: under `"LRU"` a key whose
`access_times` stamp is minimal, under `"LFU"` a key whose `access_counts`
value is minimal, and under any other policy string (FIFO) a key whose
stored insertion timestamp is minimal. -/
theorem MemoryCache.evictOne_policy (c : MemoryCache) (h : c.WF) (hne : c.cache ≠ []) :
    ∃ k0, k0 ∈ c.cache.map Prod.fst ∧
      c.evictOne.cache.map Prod.fst = (c.cache.map Prod.fst).erase k0 ∧
      (c.eviction_policy = "LRU" →
        ∃ m, (k0, m) ∈ c.access_times ∧ ∀ kv ∈ c.access_times, m ≤ kv.2) ∧
      (c.eviction_policy = "LFU" →
        ∃ n, (k0, n) ∈ c.access_counts ∧ ∀ kv ∈ c.access_counts, n ≤ kv.2) ∧
      (c.eviction_policy ≠ "LRU" → c.eviction_policy ≠ "LFU" →
        ∃ vt, (k0, vt) ∈ c.cache ∧ ∀ kv ∈ c.cache, vt.2 ≤ kv.2.2) := by
  obtain ⟨h1, h2, h3⟩ := h
  have htne : c.access_times ≠ [] := by
    intro hx
    rw [hx] at h1
    exact hne (by simpa using h1.symm)
  have hcne : c.access_counts ≠ [] := by
    intro hx
    rw [hx] at h2
    exact hne (by simpa using h2.symm)
  unfold MemoryCache.evictOne
  rw [if_neg hne]
  by_cases hLRU : c.eviction_policy = "LRU"
  · obtain ⟨kv, hkv⟩ := Option.isSome_iff_exists.mp (argminBy_isSome (fun kv => kv.2) _ htne)
    have hmem : kv ∈ c.access_times := argminBy_mem _ _ _ hkv
    have hmin := argminBy_le (fun kv => kv.2) c.access_times kv hkv
    have hkmem : kv.1 ∈ c.cache.map Prod.fst := by
      rw [← h1]
      exact List.mem_map_of_mem Prod.fst hmem
    rw [if_pos hLRU, hkv]
    refine ⟨kv.1, hkmem, (c.erased_spec kv.1 h1 h2 hkmem).1, ?_, ?_, ?_⟩
    · intro _
      exact ⟨kv.2, by simpa using hmem, fun y hy => hmin y hy⟩
    · intro hLFU
      exact absurd (hLRU.symm.trans hLFU) (by decide)
    · intro hx _
      exact absurd hLRU hx
  · by_cases hLFU : c.eviction_policy = "LFU"
    · obtain ⟨kv, hkv⟩ := Option.isSome_iff_exists.mp (argminBy_isSome (fun kv => kv.2) _ hcne)
      have hmem : kv ∈ c.access_counts := argminBy_mem _ _ _ hkv
      have hmin := argminBy_le (fun kv => kv.2) c.access_counts kv hkv
      have hkmem : kv.1 ∈ c.cache.map Prod.fst := by
        rw [← h2]
        exact List.mem_map_of_mem Prod.fst hmem
      rw [if_neg hLRU, if_pos hLFU, hkv]
      refine ⟨kv.1, hkmem, (c.erased_spec kv.1 h1 h2 hkmem).1, ?_, ?_, ?_⟩
      · intro hx
        exact absurd hx hLRU
      · intro _
        exact ⟨kv.2, by simpa using hmem, fun y hy => hmin y hy⟩
      · intro _ hx
        exact absurd hLFU hx
    · obtain ⟨kv, hkv⟩ := Option.isSome_iff_exists.mp
        (argminBy_isSome (fun kv => kv.2.2) _ hne)
      have hmem : kv ∈ c.cache := argminBy_mem _ _ _ hkv
      have hmin := argminBy_le (fun kv => kv.2.2) c.cache kv hkv
      have hkmem : kv.1 ∈ c.cache.map Prod.fst := List.mem_map_of_mem Prod.fst hmem
      rw [if_neg hLRU, if_neg hLFU, hkv]
      refine ⟨kv.1, hkmem, (c.erased_spec kv.1 h1 h2 hkmem).1, ?_, ?_, ?_⟩
      · intro hx
        exact absurd hx hLRU
      · intro hx
        exact absurd hx hLFU
      · intro _ _
        exact ⟨kv.2, by simpa using hmem, fun y hy => hmin y hy⟩

/-- `put` on a well-formed cache within its bound, when `max_size ≥ 1`:
well-formedness and the bound are preserved; moreover, if the key was new
and the cache full, the new length is exactly `max_size` again (one entry
evicted, one inserted), and the new binding is present. -/
theorem MemoryCache.put_spec (c : MemoryCache) (k : String) (v : VectorSearchResult) (t : ℚ)
    (h : c.WF) (hmax : 1 ≤ c.max_size) (hlen : c.cache.length ≤ c.max_size) :
    (c.put k v t).WF ∧ (c.put k v t).cache.length ≤ c.max_size ∧
    alGet k (c.put k v t).cache = some (v, t) ∧
    (c.cache.length = c.max_size → (alGet k c.cache).isNone →
      (c.put k v t).cache.length = c.max_size) := by
  obtain ⟨h1, h2, h3⟩ := h
  by_cases hk : (alGet k c.cache).isNone
  · have hknot : k ∉ c.cache.map Prod.fst := by
      rw [← alGet_eq_none_iff, ← Option.isNone_iff_eq_none]
      exact hk
    by_cases hfull : c.max_size ≤ c.cache.length
    · -- full: evict first, then insert
      have hlen' : c.cache.length = c.max_size := le_antisymm hlen hfull
      have hne : c.cache ≠ [] := by
        intro hx
        rw [hx] at hlen'
        simp at hlen'
        omega
      obtain ⟨k0, hk0mem, e1, e2, e3, e4, _⟩ := c.evictOne_spec ⟨h1, h2, h3⟩ hne
      have hknot' : k ∉ (c.cache.map Prod.fst).erase k0 := fun hx =>
        hknot (List.mem_of_mem_erase hx)
      unfold MemoryCache.put
      rw [if_pos ⟨hfull, hk⟩]
      have hput1 := map_fst_alPut_of_not_mem k (v, t) c.evictOne.cache (e1 ▸ hknot')
      have hput2 := map_fst_alPut_of_not_mem k t c.evictOne.access_times (e2 ▸ hknot')
      have hput3 := map_fst_alPut_of_not_mem k
        ((alGet k c.evictOne.access_counts).getD 0 + 1) c.evictOne.access_counts (e3 ▸ hknot')
      have hlen2 := length_alPut_of_not_mem k (v, t) c.evictOne.cache (e1 ▸ hknot')
      constructor
      · refine ⟨?_, ?_, ?_⟩
        · simp only [hput2, hput1, e1, e2]
        · simp only [hput3, hput1, e1, e3]
        · simp only [hput1, e1]
          refine (h3.erase k0).append (List.nodup_singleton k) ?_
          intro a ha hb
          rw [List.mem_singleton] at hb
          exact hknot' (hb ▸ ha)
      · refine ⟨?_, alGet_alPut_self _ _ _, fun _ _ => ?_⟩
        · simp only [hlen2]
          omega
        · simp only [hlen2]
          omega
    · -- not full: no eviction
      push_neg at hfull
      unfold MemoryCache.put
      rw [if_neg (fun hx => Nat.not_le_of_lt hfull hx.1)]
      have hput1 := map_fst_alPut_of_not_mem k (v, t) c.cache hknot
      have hput2 := map_fst_alPut_of_not_mem k t c.access_times (h1 ▸ hknot)
      have hput3 := map_fst_alPut_of_not_mem k
        ((alGet k c.access_counts).getD 0 + 1) c.access_counts (h2 ▸ hknot)
      have hlen2 := length_alPut_of_not_mem k (v, t) c.cache hknot
      refine ⟨⟨?_, ?_, ?_⟩, ?_, alGet_alPut_self _ _ _, fun hx _ => absurd hx hfull.ne⟩
      · simp only [hput2, hput1, h1]
      · simp only [hput3, hput1, h2]
      · simp only [hput1]
        refine h3.append (List.nodup_singleton k) ?_
        intro a ha hb
        rw [List.mem_singleton] at hb
        exact hknot (hb ▸ ha)
      · simp only [hlen2]
        omega
  · -- key present: replace in place
    have hkmem : k ∈ c.cache.map Prod.fst := by
      rw [← alGet_isSome_iff]
      cases hx : alGet k c.cache with
      | none => exact absurd (by simp [hx]) hk
      | some _ => simp
    unfold MemoryCache.put
    rw [if_neg (fun hx => hk hx.2)]
    have hput1 := map_fst_alPut_of_mem k (v, t) c.cache hkmem
    have hput2 := map_fst_alPut_of_mem k t c.access_times (h1 ▸ hkmem)
    have hput3 := map_fst_alPut_of_mem k
      ((alGet k c.access_counts).getD 0 + 1) c.access_counts (h2 ▸ hkmem)
    have hlen2 := length_alPut_of_mem k (v, t) c.cache hkmem
    refine ⟨⟨?_, ?_, ?_⟩, ?_, alGet_alPut_self _ _ _, fun _ hx => absurd hx hk⟩
    · simp only [hput2, hput1, h1]
    · simp only [hput3, hput1, h2]
    · simp only [hput1]
      exact h3
    · simp only [hlen2]
      exact hlen

/-- Along any sequence of `get`/`put` operations starting from a
well-formed in-bound state with `max_size ≥ 1`, the cache stays well-formed
and within `max_size` (which the operations never change). -/
theorem runMemOps_spec (ops : List MemOp) (c : MemoryCache)
    (h : c.WF) (hmax : 1 ≤ c.max_size) (hlen : c.cache.length ≤ c.max_size) :
    (runMemOps c ops).WF ∧ (runMemOps c ops).max_size = c.max_size ∧
    (runMemOps c ops).cache.length ≤ c.max_size := by
  induction ops generalizing c with
  | nil => exact ⟨h, rfl, hlen⟩
  | cons op rest ih =>
    cases op with
    | get k t =>
      have hwf := c.get_WF k t h
      have hc := c.get_cache k t
      have hm := c.get_max_size k t
      rw [runMemOps]
      obtain ⟨w1, w2, w3⟩ := ih (c.get k t).1 hwf (by rw [hm]; exact hmax)
        (by rw [hc, hm]; exact hlen)
      exact ⟨w1, by rw [w2, hm], by rwa [hm] at w3⟩
    | put k v t =>
      obtain ⟨hwf, hlen', _, _⟩ := c.put_spec k v t h hmax hlen
      have hm := c.put_max_size k v t
      rw [runMemOps]
      obtain ⟨w1, w2, w3⟩ := ih (c.put k v t) hwf (by rw [hm]; exact hmax)
        (by rw [hm]; exact hlen')
      exact ⟨w1, by rw [w2, hm], by rwa [hm] at w3⟩

/-! ## The Redis linear-scan loop invariant -/

/-- Everything `_find_best_match`'s loop accumulator can hold: a matching
provider/model, a quality score at or above the minimum, and a similarity
that is the dot product with the entry's embedding and at least the static
config threshold. -/
def GoodAcc (cfg : CacheConfig) (query : List ℚ) (model_provider model_name : String)
    (acc : Option CacheEntry × ℚ) : Prop :=
  ∀ e, acc.1 = some e →
    e.model_provider = model_provider ∧ e.model_name = model_name ∧
    cfg.min_quality_score ≤ e.quality_score ∧
    acc.2 = dotQ query e.embedding ∧ cfg.similarity_threshold ≤ acc.2

theorem goodAcc_init (cfg : CacheConfig) (query : List ℚ) (p m : String) :
    GoodAcc cfg query p m (none, 0) := by
  intro e he
  cases he

theorem goodAcc_considerEntry (cfg : CacheConfig) (query : List ℚ) (p m : String)
    (acc : Option CacheEntry × ℚ) (e : CacheEntry) (h : GoodAcc cfg query p m acc) :
    GoodAcc cfg query p m (considerEntry cfg query p m acc e) := by
  unfold considerEntry
  split
  · exact h
  next h1 =>
    split
    · exact h
    next h2 =>
      dsimp only
      split
      next h3 =>
        push_neg at h1
        intro e' he'
        obtain rfl : e = e' := Option.some.inj he'
        exact ⟨h1.1, h1.2, le_of_not_lt h2, rfl, h3.2⟩
      · exact h

theorem goodAcc_foldl (cfg : CacheConfig) (query : List ℚ) (p m : String)
    (l : List CacheEntry) (acc : Option CacheEntry × ℚ) (h : GoodAcc cfg query p m acc) :
    GoodAcc cfg query p m (l.foldl (considerEntry cfg query p m) acc) := by
  induction l generalizing acc with
  | nil => exact h
  | cons hd tl ih => exact ih _ (goodAcc_considerEntry cfg query p m acc hd h)

theorem goodAcc_foldl_pairs (cfg : CacheConfig) (query : List ℚ) (p m : String)
    (l : List (String × CacheEntry)) (acc : Option CacheEntry × ℚ)
    (h : GoodAcc cfg query p m acc) :
    GoodAcc cfg query p m
      (l.foldl (fun a kv => considerEntry cfg query p m a kv.2) acc) := by
  induction l generalizing acc with
  | nil => exact h
  | cons hd tl ih => exact ih _ (goodAcc_considerEntry cfg query p m acc hd.2 h)

theorem bestCandidate_good (cfg : CacheConfig) (store : List (String × CacheEntry))
    (rc : Bool) (query : List ℚ) (company role p m : String) :
    GoodAcc cfg query p m (bestCandidate cfg store rc query company role p m) := by
  unfold bestCandidate
  split
  · dsimp only
    split
    · exact goodAcc_foldl cfg query p m _ _ (goodAcc_init cfg query p m)
    · split
      · exact goodAcc_foldl cfg query p m _ _
          (goodAcc_foldl cfg query p m _ _ (goodAcc_init cfg query p m))
      · exact goodAcc_foldl cfg query p m _ _
          (goodAcc_foldl cfg query p m _ _
            (goodAcc_foldl cfg query p m _ _ (goodAcc_init cfg query p m)))
  · exact goodAcc_foldl_pairs cfg query p m _ _ (goodAcc_init cfg query p m)

/-- Any entry `_find_best_match` returns matches the requested provider and
model, clears the minimum quality score, and its dot-product similarity
with the query meets the static config threshold. -/
theorem findBestMatch_good (cfg : CacheConfig) (stats : CacheStats)
    (store : List (String × CacheEntry)) (rc : Bool) (query : List ℚ)
    (company role p m : String) (st' : CacheStats) (e : CacheEntry)
    (h : findBestMatch cfg stats store rc query company role p m = (st', some e)) :
    e.model_provider = p ∧ e.model_name = m ∧
    cfg.min_quality_score ≤ e.quality_score ∧
    cfg.similarity_threshold ≤ dotQ query e.embedding := by
  have hg := bestCandidate_good cfg store rc query company role p m
  unfold findBestMatch at h
  cases hbc : bestCandidate cfg store rc query company role p m with
  | mk best sim =>
    rw [hbc] at h
    cases best with
    | none => simp at h
    | some e' =>
      obtain ⟨hp, hm, hq, hs, ht⟩ := hg e' (by rw [hbc])
      dsimp only at h
      by_cases hz : stats.cache_hits = 0
      · rw [if_pos hz] at h
        simp at h
      · rw [if_neg hz] at h
        obtain rfl : e' = e := by
          simpa using congrArg Prod.snd h
        exact ⟨hp, hm, hq, hs ▸ ht⟩

/-- The FAISS search of `SemanticCache` returns nothing, ever: either no
candidate reaches the quality check (loop ends with `best_match = None`), or
the first one that does raises `AttributeError` on the undefined
`config.min_quality_threshold` and the handler returns `None`. -/
theorem findBestMatchFaiss_eq_none (f : FaissState) (cfg : CacheConfig) (query : List ℚ)
    (company role p m : String) (thr : Option ℚ) :
    findBestMatchFaiss f cfg query company role p m thr = none := by
  unfold findBestMatchFaiss
  split
  · rfl
  · dsimp only
    split
    · rfl
    · rfl

/-! ## CircuitBreaker lemmas -/

theorem CircuitBreaker.call_halfOpen_rejected (cb : CircuitBreaker) (now : ℚ) (ok : Bool)
    (h : cb.state = "HALF_OPEN") (hge : cb.half_open_max_calls ≤ cb.half_open_calls) :
    cb.call now ok = (cb, .rejected "Circuit breaker is HALF_OPEN with max calls exceeded") := by
  have hno : cb.state ≠ "OPEN" := by rw [h]; decide
  unfold CircuitBreaker.call
  rw [if_neg (fun hx => hno hx.1), if_neg hno, if_pos ⟨h, hge⟩]

theorem CircuitBreaker.call_halfOpen_executed (cb : CircuitBreaker) (now : ℚ) (ok : Bool)
    (h : cb.state = "HALF_OPEN") (hlt : cb.half_open_calls < cb.half_open_max_calls) :
    (cb.call now ok).2 = (if ok then CBOutcome.returned else CBOutcome.raised) ∧
    (cb.call now ok).1.state = (if ok then "CLOSED" else "OPEN") ∧
    (ok = false → (cb.call now ok).1.last_failure_time = now) := by
  have hno : cb.state ≠ "OPEN" := by rw [h]; decide
  unfold CircuitBreaker.call
  rw [if_neg (fun hx => hno hx.1), if_neg hno,
      if_neg (fun hx => Nat.not_le_of_lt hlt hx.2)]
  cases ok with
  | true => simp [h]
  | false => simp [h]

theorem halfOpenTrials_of_ne (cb : CircuitBreaker) (l : List (ℚ × Bool))
    (h : cb.state ≠ "HALF_OPEN") : halfOpenTrials cb l = 0 := by
  cases l with
  | nil => rfl
  | cons hd tl =>
    obtain ⟨t, ok⟩ := hd
    rw [halfOpenTrials, if_neg h]

/-- The trial-call bound: along any sequential trace started in HALF_OPEN,
at most `half_open_max_calls` calls reach the wrapped function before the
breaker leaves HALF_OPEN. (Sequentially at most one executes, since an
executed trial immediately closes or reopens the breaker; with
`half_open_max_calls = 0` the gate rejects every call.) -/
theorem halfOpenTrials_le (l : List (ℚ × Bool)) (cb : CircuitBreaker)
    (h : cb.state = "HALF_OPEN") :
    halfOpenTrials cb l ≤ cb.half_open_max_calls := by
  induction l generalizing cb with
  | nil => exact Nat.zero_le _
  | cons hd tl ih =>
    obtain ⟨t, ok⟩ := hd
    rw [halfOpenTrials, if_pos h]
    rcases Nat.lt_or_ge cb.half_open_calls cb.half_open_max_calls with hlt | hge
    · obtain ⟨ho, hs, _⟩ := cb.call_halfOpen_executed t ok h hlt
      have hstop : (cb.call t ok).1.state ≠ "HALF_OPEN" := by
        rw [hs]
        cases ok <;> decide
      cases hc : cb.call t ok with
      | mk cb' out =>
        rw [hc] at ho hstop
        cases out with
        | rejected msg => simp at ho; cases ok <;> simp at ho
        | returned =>
          dsimp only
          rw [halfOpenTrials_of_ne cb' tl hstop]
          omega
        | raised =>
          dsimp only
          rw [halfOpenTrials_of_ne cb' tl hstop]
          omega
    · rw [cb.call_halfOpen_rejected t ok h hge]
      exact ih cb h

/-! ## Sorted-list membership -/

theorem mem_insertBefore {α : Type} (b : α → α → Bool) (x y : α) (l : List α)
    (h : y ∈ insertBefore b x l) : y = x ∨ y ∈ l := by
  induction l with
  | nil => simpa [insertBefore] using h
  | cons hd tl ih =>
    rw [insertBefore] at h
    split at h
    · rcases List.mem_cons.mp h with h | h
      · exact Or.inl h
      · exact Or.inr h
    · rcases List.mem_cons.mp h with h | h
      · exact Or.inr (h ▸ List.mem_cons_self _ _)
      · rcases ih h with h | h
        · exact Or.inl h
        · exact Or.inr (List.mem_cons_of_mem _ h)

theorem mem_sortListBy {α : Type} (b : α → α → Bool) (l : List α) (y : α)
    (h : y ∈ sortListBy b l) : y ∈ l := by
  induction l with
  | nil => simpa [sortListBy] using h
  | cons hd tl ih =>
    rw [sortListBy, List.foldr_cons] at h
    rcases mem_insertBefore b hd y _ h with h | h
    · exact h ▸ List.mem_cons_self _ _
    · exact List.mem_cons_of_mem _ (ih h)

/-! ## Provider/model filters on the vector-database search paths -/

/-- Memory-tier results: provider and model are checked for equality, and
the *stored* similarity is checked against the threshold. -/
theorem searchMemoryCache_good (mc : Option MemoryCache) (now : ℚ)
    (jd p m : String) (c r : Option String) (thr : ℚ) (x : VectorSearchResult)
    (hx : x ∈ (searchMemoryCache mc now jd p m c r thr).2) :
    x.entry.model_provider = p ∧ x.entry.model_name = m ∧ thr ≤ x.similarity := by
  unfold searchMemoryCache at hx
  cases mc with
  | none => simp at hx
  | some m0 =>
    dsimp only at hx
    split at hx
    · simp at hx
    · cases hget : m0.get (genCacheKey (c.getD "") (r.getD "") p now) now with
      | mk m' res =>
        rw [hget] at hx
        cases res with
        | none => simp at hx
        | some r0 =>
          dsimp only at hx
          split at hx
          next hpm =>
            split at hx
            next hthr =>
              have hxr : x = r0 := by simpa using hx
              subst hxr
              exact ⟨hpm.1, hpm.2, hthr⟩
            · simp at hx
          · simp at hx

/-- FAISS-tier results of the vector database: provider and model equality
is enforced by the post-retrieval filter. -/
theorem vdbSearchFaiss_provider_model (f : VdbFaiss) (eo : String → Option (List ℚ))
    (mr : Nat) (jd p m : String) (c r : Option String) (thr : ℚ)
    (x : VectorSearchResult) (hx : x ∈ vdbSearchFaiss f eo mr jd p m c r thr) :
    x.entry.model_provider = p ∧ x.entry.model_name = m := by
  unfold vdbSearchFaiss at hx
  split at hx
  · simp at hx
  · cases he : eo jd with
    | none => rw [he] at hx; simp at hx
    | some q =>
      rw [he] at hx
      dsimp only at hx
      have hx2 := mem_sortListBy _ _ _ (List.take_subset _ _ hx)
      obtain ⟨cand, _, hf⟩ := List.mem_filterMap.mp hx2
      cases hmd : alGet cand.2 f.id_map with
      | none => rw [hmd] at hf; simp at hf
      | some md =>
        rw [hmd] at hf
        dsimp only at hf
        split at hf
        · simp at hf
        next h1 =>
          split at hf
          · simp at hf
          next h2 =>
            split at hf
            · simp at hf
            · split at hf
              · simp at hf
              · split at hf
                · simp at hf
                · rw [← Option.some.inj hf]
                  rw [not_not] at h1 h2  -- `¬(a ≠ b)` → `a = b`
                  exact ⟨h1, h2⟩

/-- ChromaDB results: provider and model equality comes from the metadata
`where`-filter applied before the similarity search. -/
theorem searchChromadbSync_provider_model (coll : List ChromaDoc)
    (eo : String → Option (List ℚ)) (mr : Nat) (jd p m : String)
    (c r : Option String) (thr : ℚ) (x : VectorSearchResult)
    (hx : x ∈ searchChromadbSync coll eo mr jd p m c r thr) :
    x.entry.model_provider = p ∧ x.entry.model_name = m := by
  unfold searchChromadbSync at hx
  dsimp only at hx
  have hx2 := mem_sortListBy _ _ _ hx
  obtain ⟨pair, hmem, hf⟩ := List.mem_filterMap.mp hx2
  have hmem2 := mem_sortListBy _ _ _ (List.take_subset _ _ hmem)
  obtain ⟨d, hd, hpair⟩ := List.mem_map.mp hmem2
  have hfil := (List.mem_filter.mp hd).2
  simp only [Bool.and_eq_true, beq_iff_eq] at hfil
  split at hf
  · simp at hf
  · rw [← Option.some.inj hf, ← hpair]
    exact ⟨hfil.1.1.1, hfil.1.1.2⟩

/-! ## Failure propagation (breaker OPEN / backend error) -/

theorem CircuitBreaker.call_not_returned (cb : CircuitBreaker) (now : ℚ) (ok : Bool)
    (h : (cb.state = "OPEN" ∧ ¬(cb.recovery_timeout < now - cb.last_failure_time)) ∨
      ok = false) :
    (cb.call now ok).2 ≠ CBOutcome.returned := by
  rcases h with h | h
  · unfold CircuitBreaker.call
    rw [if_pos h]
    simp
  · subst h
    by_cases ho : cb.state = "OPEN"
    · by_cases ht : cb.recovery_timeout < now - cb.last_failure_time
      · by_cases hm : cb.half_open_max_calls = 0
        · simp [CircuitBreaker.call, ho, ht, hm]
        · simp [CircuitBreaker.call, ho, ht, hm]
      · simp [CircuitBreaker.call, ho, ht]
    · by_cases hh : cb.state = "HALF_OPEN"
      · by_cases hm : cb.half_open_max_calls ≤ cb.half_open_calls
        · simp [CircuitBreaker.call, ho, hh, hm]
        · simp [CircuitBreaker.call, ho, hh, hm]
      · simp [CircuitBreaker.call, ho, hh]

theorem searchChromadb_fail (cb : CircuitBreaker) (now : ℚ) (ok : Bool)
    (coll : List ChromaDoc) (eo : String → Option (List ℚ)) (mr : Nat)
    (jd p m : String) (c r : Option String) (thr : ℚ)
    (h : (cb.state = "OPEN" ∧ ¬(cb.recovery_timeout < now - cb.last_failure_time)) ∨
      ok = false) :
    (searchChromadb cb now ok coll eo mr jd p m c r thr).2 = [] := by
  have hnr := cb.call_not_returned now ok h
  unfold searchChromadb
  cases hc : cb.call now ok with
  | mk cb' out =>
    rw [hc] at hnr
    cases out with
    | rejected msg => rfl
    | returned => exact absurd rfl hnr
    | raised => rfl

theorem searchSimilarEntries_fail (v : VectorDBState) (eo : String → Option (List ℚ))
    (now : ℚ) (ok : Bool) (jd p m : String) (c r : Option String) (thr : Option ℚ)
    (hmem : v.memory_cache = none) (hfaiss : v.faiss = none)
    (h : (v.breaker.state = "OPEN" ∧
        ¬(v.breaker.recovery_timeout < now - v.breaker.last_failure_time)) ∨
      ok = false) :
    (searchSimilarEntries v eo now ok jd p m c r thr).2 = [] := by
  have hfail := searchChromadb_fail v.breaker now ok v.collection eo v.config.max_results
    jd p m c r
    (match thr with
     | some t => if t = 0 then v.config.similarity_threshold else t
     | none => v.config.similarity_threshold) h
  unfold searchSimilarEntries
  rw [hmem]
  dsimp only [searchMemoryCache]
  rw [hfaiss]
  dsimp only
  exact hfail

/-- A vector-database lookup whose memory tier and FAISS tier are absent
and whose ChromaDB call is rejected (breaker OPEN within the recovery
window) or fails returns no match, leaving the semantic-cache-level fields
of the state untouched. -/
theorem findBestMatchVectorDb_fail (embed : String → Except String (List ℚ))
    (s : SemanticCacheState) (now : ℚ) (ok : Bool) (jd c r p m : String) (dyn : ℚ)
    (v : VectorDBState) (hv : s.vector_db = some v)
    (hmem : v.memory_cache = none) (hfaiss : v.faiss = none)
    (h : (v.breaker.state = "OPEN" ∧
        ¬(v.breaker.recovery_timeout < now - v.breaker.last_failure_time)) ∨
      ok = false) :
    (findBestMatchVectorDb embed s now ok jd c r p m dyn).2 = none ∧
    (findBestMatchVectorDb embed s now ok jd c r p m dyn).1.config = s.config ∧
    (findBestMatchVectorDb embed s now ok jd c r p m dyn).1.stats = s.stats ∧
    (findBestMatchVectorDb embed s now ok jd c r p m dyn).1.redis = s.redis ∧
    (findBestMatchVectorDb embed s now ok jd c r p m dyn).1.redis_client = s.redis_client := by
  have hres := searchSimilarEntries_fail v (fun t => (embed t).toOption) now ok jd p m
    (some c) (some r) (some dyn) hmem hfaiss h
  unfold findBestMatchVectorDb
  rw [hv]
  dsimp only
  generalize hse : searchSimilarEntries v (fun t => (embed t).toOption) now ok jd p m
    (some c) (some r) (some dyn) = sr at hres ⊢
  obtain ⟨v', res⟩ := sr
  dsimp only at hres
  subst hres
  exact ⟨rfl, rfl, rfl, rfl, rfl⟩

/-- Tier probing when the FAISS path yields nothing (it always does), the
vector-database path is cut off by its breaker or backend failure, and so
only the Redis scan decides the outcome. -/
theorem probeTiers_fail (embed : String → Except String (List ℚ))
    (s0 : SemanticCacheState) (now : ℚ) (ok : Bool) (jd p m : String)
    (parsed : Option ParsedJD) (q : List ℚ) (v : VectorDBState)
    (hv : s0.vector_db = some v)
    (hmem : v.memory_cache = none) (hfaiss : v.faiss = none)
    (h : (v.breaker.state = "OPEN" ∧
        ¬(v.breaker.recovery_timeout < now - v.breaker.last_failure_time)) ∨
      ok = false) :
    (probeTiers embed s0 now ok jd p m parsed q).2 =
      (findBestMatch s0.config s0.stats s0.redis s0.redis_client q
        (companyOf parsed) (roleOf parsed) p m).2 := by
  obtain ⟨h1, h2, h3, h4, h5⟩ := findBestMatchVectorDb_fail embed s0 now ok jd
    (companyOf parsed) (roleOf parsed) p m
    (calculateDynamicThreshold s0.config.similarity_threshold parsed p
      (match s0.faiss with | some f => f.vectors.length | none => 0))
    v hv hmem hfaiss h
  unfold probeTiers
  dsimp only
  have hm1 : (match s0.faiss with
      | some f =>
        if 0 < f.vectors.length then
          findBestMatchFaiss f s0.config q (companyOf parsed) (roleOf parsed) p m
            (some (calculateDynamicThreshold s0.config.similarity_threshold parsed p
              (match s0.faiss with | some f => f.vectors.length | none => 0)))
        else none
      | none => none) = none := by
    cases s0.faiss with
    | none => rfl
    | some f =>
      dsimp only
      split
      · exact findBestMatchFaiss_eq_none _ _ _ _ _ _ _ _
      · rfl
  rw [hm1]
  rw [hv]
  simp only [Option.isNone_none, eq_self_iff_true, if_true]
  generalize hfb : findBestMatchVectorDb embed s0 now ok jd (companyOf parsed)
    (roleOf parsed) p m
    (calculateDynamicThreshold s0.config.similarity_threshold parsed p
      (match s0.faiss with | some f => f.vectors.length | none => 0)) = fr
    at h1 h2 h3 h4 h5 ⊢
  obtain ⟨s', r⟩ := fr
  dsimp only at h1 h2 h3 h4 h5
  subst h1
  rw [h2, h3, h4, h5]
  simp only [Option.isNone_none, eq_self_iff_true, if_true]

/-- On a successful embedding, the lookup's returned value is the probe
outcome with the hit-count/last-accessed update applied. -/
theorem getCachedResponse_shape (embed : String → Except String (List ℚ))
    (s : SemanticCacheState) (now : ℚ) (ok : Bool) (jd p m : String)
    (parsed : Option ParsedJD) (q : List ℚ) (hq : embed jd = Except.ok q) :
    (getCachedResponse embed s now ok jd p m parsed).2 =
      ((probeTiers embed
          {s with stats := {s.stats with total_requests := s.stats.total_requests + 1}}
          now ok jd p m parsed q).2.map
        (fun e => {e with hit_count := e.hit_count + 1, last_accessed := now})) := by
  unfold getCachedResponse
  rw [hq]
  dsimp only
  generalize probeTiers embed
    {s with stats := {s.stats with total_requests := s.stats.total_requests + 1}}
    now ok jd p m parsed q = pr
  obtain ⟨s3, r⟩ := pr
  cases r with
  | none => rfl
  | some e => rfl

/-- An embedding failure is caught by the lookup's outer handler: the call
returns `none` instead of raising. -/
theorem getCachedResponse_embed_error (embed : String → Except String (List ℚ))
    (s : SemanticCacheState) (now : ℚ) (ok : Bool) (jd p m : String)
    (parsed : Option ParsedJD) (msg : String) (hq : embed jd = Except.error msg) :
    (getCachedResponse embed s now ok jd p m parsed).2 = none := by
  unfold getCachedResponse
  rw [hq]

/-! # Concrete sample data used by witnesses and counterexamples -/

namespace Samples

/-- A normalized cached cover letter entry for `acme`/`eng` on
`openai`/`gpt-4o`. -/
def letterEntry : CacheEntry :=
  { content := "letter", embedding := [1, 0], company := "acme", role := "eng",
    skills := [], model_provider := "openai", model_name := "gpt-4o",
    token_count := 100, cost_usd := 0.5, created_at := 0, hit_count := 0,
    last_accessed := 0, quality_score := 1 }

def letterResult : VectorSearchResult := ⟨letterEntry, 1, 0⟩

def secondResult : VectorSearchResult := ⟨letterEntry, 0.9, 0.1⟩

/-- An embedding collaborator that always answers `[1, 0]`. -/
def embedUnit : String → Except String (List ℚ) := fun _ => .ok [1, 0]

/-- An embedding collaborator that always answers `[0, 1]` (orthogonal to
every stored `[1, 0]` embedding). -/
def embedOrtho : String → Except String (List ℚ) := fun _ => .ok [0, 1]

/-- An embedding collaborator that always fails. -/
def embedFail : String → Except String (List ℚ) := fun _ => .error "embedding backend down"

/-- A full (2/2), well-formed LRU memory cache. -/
def fullCache : MemoryCache :=
  { max_size := 2, eviction_policy := "LRU",
    cache := [("a", letterResult, 0), ("b", letterResult, 1)],
    access_times := [("a", 0), ("b", 1)],
    access_counts := [("a", 1), ("b", 1)] }

/-- A memory cache keyed for `acme`/`eng`/`openai` in hour bucket 1
(`genCacheKey "acme" "eng" "openai" 3600`). -/
def hourlyCache : MemoryCache :=
  { max_size := 1000, eviction_policy := "LRU",
    cache := [("acme:eng:openai:1", letterResult, 0)],
    access_times := [("acme:eng:openai:1", 0)],
    access_counts := [("acme:eng:openai:1", 1)] }

/-- A breaker sitting in HALF_OPEN with its (never-incremented) trial
counter at zero. -/
def halfOpenBreaker : CircuitBreaker :=
  { failure_threshold := 5, recovery_timeout := 60, half_open_max_calls := 3,
    failure_count := 2, last_failure_time := 10, half_open_calls := 0,
    state := "HALF_OPEN" }

end Samples

/-! # Claims -/

/-- C5: for every parsed job-description context — including a missing one
— every combination of complexity, job level, industry and skill counts,
and every cache population size, `_calculate_dynamic_threshold` returns a
value within [0.70, 0.95]; the clamp bounds any sum of adjustments. The
base threshold is the configured `similarity_threshold` (default 0.85),
assumed itself within the range (the falsy-context early return hands it
back unclamped). -/
theorem dynamicThreshold_bounds (base : ℚ) (parsed : Option ParsedJD)
    (mp : String) (cache_size : Nat) (h1 : 0.70 ≤ base) (h2 : base ≤ 0.95) :
    0.70 ≤ calculateDynamicThreshold base parsed mp cache_size ∧
    calculateDynamicThreshold base parsed mp cache_size ≤ 0.95 := by
  cases parsed with
  | none => exact ⟨h1, h2⟩
  | some pjd =>
    unfold calculateDynamicThreshold
    dsimp only
    exact ⟨le_max_left _ _, max_le (by norm_num) (min_le_left _ _)⟩

theorem dynamicThreshold_bounds_witness :
    ((0.70 : ℚ) ≤ 0.85 ∧ (0.85 : ℚ) ≤ 0.95) ∧
    (0.70 ≤ calculateDynamicThreshold 0.85 none "openai" 0 ∧
      calculateDynamicThreshold 0.85 none "openai" 0 ≤ 0.95) :=
  ⟨⟨by norm_num, by norm_num⟩,
   dynamicThreshold_bounds 0.85 none "openai" 0 (by norm_num) (by norm_num)⟩

/-- C6: while a `CircuitBreaker` is HALF_OPEN, at most
`half_open_max_calls` calls reach the wrapped function before further
calls are rejected (sequentially an executed trial immediately leaves
HALF_OPEN, and with the quota at zero the gate rejects outright); and any
failure of an executed trial during HALF_OPEN immediately reopens the
breaker, resetting `last_failure_time` to the failure time. -/
theorem circuitBreaker_halfOpen_spec :
    (∀ (cb : CircuitBreaker) (l : List (ℚ × Bool)), cb.state = "HALF_OPEN" →
      halfOpenTrials cb l ≤ cb.half_open_max_calls) ∧
    (∀ (cb : CircuitBreaker) (now : ℚ), cb.state = "HALF_OPEN" →
      cb.half_open_calls < cb.half_open_max_calls →
      (cb.call now false).1.state = "OPEN" ∧
      (cb.call now false).1.last_failure_time = now) := by
  constructor
  · intro cb l h
    exact halfOpenTrials_le l cb h
  · intro cb now h hlt
    obtain ⟨_, hs, hl⟩ := cb.call_halfOpen_executed now false h hlt
    refine ⟨?_, hl rfl⟩
    simpa using hs

theorem circuitBreaker_halfOpen_spec_witness :
    halfOpenTrials Samples.halfOpenBreaker [(20, true), (21, false)] ≤
      Samples.halfOpenBreaker.half_open_max_calls ∧
    ((Samples.halfOpenBreaker.call 20 false).1.state = "OPEN" ∧
      (Samples.halfOpenBreaker.call 20 false).1.last_failure_time = 20) :=
  ⟨circuitBreaker_halfOpen_spec.1 Samples.halfOpenBreaker _ rfl,
   circuitBreaker_halfOpen_spec.2 Samples.halfOpenBreaker 20 rfl (by decide)⟩

/-- C7 (counterexample): with `max_size = 0` the very first `put` leaves
the cache holding more entries than `max_size` — `_evict_one` finds
nothing to evict in an empty cache and the insertion happens regardless. -/
theorem memoryCache_max_size_zero_overflow :
    ((MemoryCache.init 0 "LRU").put "k" Samples.letterResult 0).max_size <
      ((MemoryCache.init 0 "LRU").put "k" Samples.letterResult 0).cache.length := by
  decide

/-- C7 (amended): provided `max_size ≥ 1`, the `MemoryCache` never holds
more than `max_size` entries after any sequence of `get`/`put` operations
from empty; and a `put` of a new key into a full well-formed cache first
evicts exactly one entry — the victim chosen by the configured policy: a
key with minimal `access_times` stamp under `"LRU"`, with minimal
`access_counts` under `"LFU"`, with minimal stored insertion timestamp
under any other policy string (FIFO) — and then inserts, so the cache is
exactly full again and the new entry is present, never dropped. -/
theorem memoryCache_bounded :
    (∀ (max_size : Nat) (policy : String) (ops : List MemOp), 1 ≤ max_size →
      (runMemOps (MemoryCache.init max_size policy) ops).cache.length ≤ max_size) ∧
    (∀ (c : MemoryCache) (k : String) (v : VectorSearchResult) (t : ℚ),
      c.WF → 1 ≤ c.max_size → c.cache.length = c.max_size → alGet k c.cache = none →
      (c.put k v t).cache.length = c.max_size ∧
      alGet k (c.put k v t).cache = some (v, t) ∧
      ∃ k0, k0 ∈ c.cache.map Prod.fst ∧
        (c.put k v t).cache.map Prod.fst = ((c.cache.map Prod.fst).erase k0) ++ [k] ∧
        (c.eviction_policy = "LRU" →
          ∃ m, (k0, m) ∈ c.access_times ∧ ∀ kv ∈ c.access_times, m ≤ kv.2) ∧
        (c.eviction_policy = "LFU" →
          ∃ n, (k0, n) ∈ c.access_counts ∧ ∀ kv ∈ c.access_counts, n ≤ kv.2) ∧
        (c.eviction_policy ≠ "LRU" → c.eviction_policy ≠ "LFU" →
          ∃ vt, (k0, vt) ∈ c.cache ∧ ∀ kv ∈ c.cache, vt.2 ≤ kv.2.2)) := by
  constructor
  · intro ms policy ops hms
    obtain ⟨_, _, h3⟩ := runMemOps_spec ops (MemoryCache.init ms policy)
      (MemoryCache.init_WF ms policy) hms (by simp [MemoryCache.init])
    exact h3
  · intro c k v t hwf hms hfull hnone
    obtain ⟨_, _, hget, hexact⟩ := c.put_spec k v t hwf hms (le_of_eq hfull)
    refine ⟨hexact hfull (by simp [hnone]), hget, ?_⟩
    have hne : c.cache ≠ [] := by
      intro hx
      rw [hx] at hfull
      simp at hfull
      omega
    obtain ⟨k0, hk0mem, he, hL1, hL2, hL3⟩ := c.evictOne_policy hwf hne
    refine ⟨k0, hk0mem, ?_, hL1, hL2, hL3⟩
    have hknot : k ∉ c.cache.map Prod.fst := by
      rw [← alGet_eq_none_iff]
      exact hnone
    have hknot' : k ∉ (c.cache.map Prod.fst).erase k0 := fun hx =>
      hknot (List.mem_of_mem_erase hx)
    unfold MemoryCache.put
    rw [if_pos ⟨le_of_eq hfull.symm, by simp [hnone]⟩]
    rw [map_fst_alPut_of_not_mem k (v, t) c.evictOne.cache (he ▸ hknot'), he]

theorem memoryCache_bounded_witness :
    (runMemOps (MemoryCache.init 2 "LRU")
        [MemOp.put "a" Samples.letterResult 0, MemOp.put "b" Samples.letterResult 1,
         MemOp.put "c" Samples.letterResult 2]).cache.length ≤ 2 ∧
    ((Samples.fullCache.put "c" Samples.letterResult 5).cache.length =
        Samples.fullCache.max_size ∧
      alGet "c" (Samples.fullCache.put "c" Samples.letterResult 5).cache =
        some (Samples.letterResult, 5) ∧
      ∃ k0, k0 ∈ Samples.fullCache.cache.map Prod.fst ∧
        (Samples.fullCache.put "c" Samples.letterResult 5).cache.map Prod.fst =
          ((Samples.fullCache.cache.map Prod.fst).erase k0) ++ ["c"] ∧
        (Samples.fullCache.eviction_policy = "LRU" →
          ∃ m, (k0, m) ∈ Samples.fullCache.access_times ∧
            ∀ kv ∈ Samples.fullCache.access_times, m ≤ kv.2) ∧
        (Samples.fullCache.eviction_policy = "LFU" →
          ∃ n, (k0, n) ∈ Samples.fullCache.access_counts ∧
            ∀ kv ∈ Samples.fullCache.access_counts, n ≤ kv.2) ∧
        (Samples.fullCache.eviction_policy ≠ "LRU" →
            Samples.fullCache.eviction_policy ≠ "LFU" →
          ∃ vt, (k0, vt) ∈ Samples.fullCache.cache ∧
            ∀ kv ∈ Samples.fullCache.cache, vt.2 ≤ kv.2.2)) :=
  ⟨memoryCache_bounded.1 2 "LRU" _ (by norm_num),
   memoryCache_bounded.2 Samples.fullCache "c" Samples.letterResult 5
     (by refine ⟨rfl, rfl, ?_⟩; decide) (by decide) (by decide) (by decide)⟩

/-- C10: a `put` on a key already in the cache replaces that key's value in
place — no eviction even at capacity, the entry count is unchanged, the
key now maps to the new value, and every other key's stored value is
untouched. -/
theorem memoryCache_put_existing_frame (c : MemoryCache) (k : String)
    (v : VectorSearchResult) (t : ℚ) (h : (alGet k c.cache).isSome) :
    (c.put k v t).cache.length = c.cache.length ∧
    alGet k (c.put k v t).cache = some (v, t) ∧
    ∀ k', k' ≠ k → alGet k' (c.put k v t).cache = alGet k' c.cache := by
  have hkmem : k ∈ c.cache.map Prod.fst := (alGet_isSome_iff k c.cache).mp h
  have hnone : ¬(alGet k c.cache).isNone = true := by
    cases hx : alGet k c.cache with
    | none => rw [hx] at h; simp at h
    | some _ => simp
  unfold MemoryCache.put
  rw [if_neg (fun hx => hnone hx.2)]
  exact ⟨length_alPut_of_mem _ _ _ hkmem, alGet_alPut_self _ _ _,
    fun k' hk' => alGet_alPut_ne _ _ _ _ hk'⟩

theorem memoryCache_put_existing_frame_witness :
    (alGet "a" Samples.fullCache.cache).isSome = true ∧
    ((Samples.fullCache.put "a" Samples.secondResult 9).cache.length =
        Samples.fullCache.cache.length ∧
      alGet "a" (Samples.fullCache.put "a" Samples.secondResult 9).cache =
        some (Samples.secondResult, 9) ∧
      alGet "b" (Samples.fullCache.put "a" Samples.secondResult 9).cache =
        alGet "b" Samples.fullCache.cache) :=
  ⟨by decide,
   by
    obtain ⟨w1, w2, w3⟩ := memoryCache_put_existing_frame Samples.fullCache "a"
      Samples.secondResult 9 (by decide)
    exact ⟨w1, w2, w3 "b" (by decide)⟩⟩

/-- C3: no search path ever returns an entry whose provider or model
differs from the request's, whatever the similarity: the Redis linear scan
and in-memory fallback (`_find_best_match`), the semantic-cache FAISS path
(`_find_best_match_faiss` — which in fact returns nothing at all), the
vector-database memory tier, the vector-database FAISS tier, and ChromaDB
(whose metadata `where`-filter enforces the equality). -/
theorem hits_match_provider_and_model :
    (∀ (cfg : CacheConfig) (stats : CacheStats) (store : List (String × CacheEntry))
        (rc : Bool) (q : List ℚ) (c r p m : String) (st' : CacheStats) (e : CacheEntry),
      findBestMatch cfg stats store rc q c r p m = (st', some e) →
      e.model_provider = p ∧ e.model_name = m) ∧
    (∀ (f : FaissState) (cfg : CacheConfig) (q : List ℚ) (c r p m : String)
        (thr : Option ℚ) (e : CacheEntry),
      findBestMatchFaiss f cfg q c r p m thr = some e →
      e.model_provider = p ∧ e.model_name = m) ∧
    (∀ (mc : Option MemoryCache) (now : ℚ) (jd p m : String) (c r : Option String)
        (thr : ℚ) (x : VectorSearchResult),
      x ∈ (searchMemoryCache mc now jd p m c r thr).2 →
      x.entry.model_provider = p ∧ x.entry.model_name = m) ∧
    (∀ (f : VdbFaiss) (eo : String → Option (List ℚ)) (mr : Nat) (jd p m : String)
        (c r : Option String) (thr : ℚ) (x : VectorSearchResult),
      x ∈ vdbSearchFaiss f eo mr jd p m c r thr →
      x.entry.model_provider = p ∧ x.entry.model_name = m) ∧
    (∀ (coll : List ChromaDoc) (eo : String → Option (List ℚ)) (mr : Nat)
        (jd p m : String) (c r : Option String) (thr : ℚ) (x : VectorSearchResult),
      x ∈ searchChromadbSync coll eo mr jd p m c r thr →
      x.entry.model_provider = p ∧ x.entry.model_name = m) := by
  refine ⟨?_, ?_, ?_, ?_, ?_⟩
  · intro cfg stats store rc q c r p m st' e h
    obtain ⟨h1, h2, _, _⟩ := findBestMatch_good cfg stats store rc q c r p m st' e h
    exact ⟨h1, h2⟩
  · intro f cfg q c r p m thr e h
    rw [findBestMatchFaiss_eq_none] at h
    cases h
  · intro mc now jd p m c r thr x hx
    obtain ⟨h1, h2, _⟩ := searchMemoryCache_good mc now jd p m c r thr x hx
    exact ⟨h1, h2⟩
  · intro f eo mr jd p m c r thr x hx
    exact vdbSearchFaiss_provider_model f eo mr jd p m c r thr x hx
  · intro coll eo mr jd p m c r thr x hx
    exact searchChromadbSync_provider_model coll eo mr jd p m c r thr x hx

theorem hits_match_provider_and_model_witness :
    (Samples.letterEntry.model_provider = "openai" ∧
      Samples.letterEntry.model_name = "gpt-4o") ∧
    (Samples.letterResult.entry.model_provider = "openai" ∧
      Samples.letterResult.entry.model_name = "gpt-4o") :=
  ⟨hits_match_provider_and_model.1 {} {cache_hits := 1}
      [("semantic_cache:acme:eng:abc", Samples.letterEntry)] true [1, 0]
      "unknown" "unknown" "openai" "gpt-4o"
      {cache_hits := 1, average_similarity := 1} Samples.letterEntry (by decide),
   hits_match_provider_and_model.2.2.1 (some Samples.hourlyCache) 3600
      "jd" "openai" "gpt-4o" (some "acme") (some "eng") 0.85
      Samples.letterResult (by decide)⟩

/-- C2 (amended): a hit from the Redis linear-scan path is gated on the
dot-product similarity recomputed between the current query embedding and
the entry's embedding, and that value meets the *static* configured
`similarity_threshold` — `get_cached_response` never passes the
per-request dynamic threshold to `_find_best_match`, which reads
`self.config.similarity_threshold` instead; a hit served from the vector
database's in-memory result cache only guarantees that the similarity
*stored with the cached result at insertion time* meets the passed
threshold (with provider/model equality) — no cosine similarity against
the current query is recomputed there. -/
theorem hit_similarity_semantics :
    (∀ (cfg : CacheConfig) (stats : CacheStats) (store : List (String × CacheEntry))
        (rc : Bool) (q : List ℚ) (c r p m : String) (st' : CacheStats) (e : CacheEntry),
      findBestMatch cfg stats store rc q c r p m = (st', some e) →
      cfg.similarity_threshold ≤ dotQ q e.embedding) ∧
    (∀ (mc : Option MemoryCache) (now : ℚ) (jd p m : String) (c r : Option String)
        (thr : ℚ) (x : VectorSearchResult),
      x ∈ (searchMemoryCache mc now jd p m c r thr).2 →
      thr ≤ x.similarity ∧ x.entry.model_provider = p ∧ x.entry.model_name = m) := by
  constructor
  · intro cfg stats store rc q c r p m st' e h
    exact (findBestMatch_good cfg stats store rc q c r p m st' e h).2.2.2
  · intro mc now jd p m c r thr x hx
    obtain ⟨h1, h2, h3⟩ := searchMemoryCache_good mc now jd p m c r thr x hx
    exact ⟨h3, h1, h2⟩

theorem hit_similarity_semantics_witness :
    (({} : CacheConfig).similarity_threshold ≤
      dotQ [1, 0] Samples.letterEntry.embedding) ∧
    ((0.85 : ℚ) ≤ Samples.letterResult.similarity ∧
      Samples.letterResult.entry.model_provider = "openai" ∧
      Samples.letterResult.entry.model_name = "gpt-4o") :=
  ⟨hit_similarity_semantics.1 {} {cache_hits := 1}
      [("semantic_cache:acme:eng:abc", Samples.letterEntry)] true [1, 0]
      "unknown" "unknown" "openai" "gpt-4o"
      {cache_hits := 1, average_similarity := 1} Samples.letterEntry (by decide),
   hit_similarity_semantics.2 (some Samples.hourlyCache) 3600
      "jd" "openai" "gpt-4o" (some "acme") (some "eng") 0.85
      Samples.letterResult (by decide)⟩

/-- A result cached in the vector database's memory tier with the
similarity it had when it was stored (1.0 for a fresh insert). -/
def staleEntry : CacheEntry :=
  { content := "stored letter", embedding := [1, 0], company := "unknown",
    role := "unknown", skills := [], model_provider := "openai",
    model_name := "gpt-4o", token_count := 100, cost_usd := 0.5, created_at := 0,
    hit_count := 0, last_accessed := 0, quality_score := 1 }

def staleResult : VectorSearchResult := ⟨staleEntry, 1, 0⟩

def staleMC : MemoryCache :=
  { max_size := 1000, eviction_policy := "LRU",
    cache := [("unknown:unknown:openai:2", staleResult, 0)],
    access_times := [("unknown:unknown:openai:2", 0)],
    access_counts := [("unknown:unknown:openai:2", 1)] }

def staleVdb : VectorDBState :=
  { config := {},
    breaker := {failure_threshold := 5, recovery_timeout := 60, half_open_max_calls := 3},
    memory_cache := some staleMC, faiss := none, collection := [] }

def staleState : SemanticCacheState :=
  { config := {}, stats := {}, redis_client := true, redis := [], faiss := none,
    vector_db := some staleVdb }

/-- C2 (counterexample): a lookup whose query embedding `[0, 1]` is
orthogonal to the stored entry's embedding `[1, 0]` (cosine similarity 0,
far below every threshold) is still served as a hit from the in-memory
result cache, because the tier compares the similarity stored at caching
time (1.0) against the threshold instead of recomputing the cosine
similarity for the current query. -/
theorem memory_tier_similarity_stale :
    (searchMemoryCache (some staleMC) 7200 "jd" "openai" "gpt-4o"
        (some "unknown") (some "unknown") 0.85).2 = [staleResult] ∧
    staleResult.similarity = 1 ∧
    dotQ [0, 1] staleResult.entry.embedding = 0 ∧
    staleResult.similarity ≠ dotQ [0, 1] staleResult.entry.embedding ∧
    (getCachedResponse Samples.embedOrtho staleState 7200 true "jd" "openai"
        "gpt-4o" none).2 =
      some {staleEntry with hit_count := 1, last_accessed := 7200} := by
  refine ⟨by decide, by decide, by decide, by decide, by decide⟩

/-- The single FAISS candidate for the C8 scenario: exact company and role
match (bonus would be +0.03), raw similarity 0.84 against the query, with
an 0.85 threshold. -/
def bonusMeta : FaissMeta :=
  { cache_key := "semantic_cache:acme:engineer:deadbeef", company := "Acme",
    role := "Engineer", model_provider := "openai", model_name := "gpt-4o",
    quality_score := 1, created_at := 0 }

def bonusFaiss : FaissState :=
  { vectors := [[1, 0]], id_map := [(0, bonusMeta)], id_counter := 1 }

def bonusQuery : List ℚ := [0.84, 0.2]

/-- C8 (counterexample): at the very scenario the claim describes — raw
similarity 0.84 below the 0.85 threshold, preference bonus +0.02 (company)
+0.01 (role) lifting the adjusted score to 0.87 — the FAISS search returns
nothing: in the source the `similarity < threshold` gate on the *raw*
similarity precedes the bonus, and the quality filter above it reads an
undefined config attribute, so no candidate is ever returned at all. -/
theorem faiss_bonus_cannot_cross_threshold :
    dotQ bonusQuery [1, 0] < 0.85 ∧
    (0.85 : ℚ) < dotQ bonusQuery [1, 0] + 0.02 + 0.01 ∧
    pyLower bonusMeta.company = pyLower "Acme" ∧
    pyLower bonusMeta.role = pyLower "Engineer" ∧
    findBestMatchFaiss bonusFaiss {} bonusQuery "Acme" "Engineer" "openai" "gpt-4o"
      (some 0.85) = none := by
  refine ⟨by decide, by decide, by decide, by decide, by decide⟩

/-- C8 (amended): the preference bonus exists in the source text but only
after the threshold gate on raw similarity, and the quality filter before
it reads the undefined `min_quality_threshold` config attribute, whose
`AttributeError` is swallowed by the handler — so the semantic cache's
FAISS path returns no candidate for any input; in particular the bonus can
never push a below-threshold candidate into acceptance. -/
theorem faiss_path_returns_nothing (f : FaissState) (cfg : CacheConfig)
    (query : List ℚ) (company role p m : String) (thr : Option ℚ) :
    findBestMatchFaiss f cfg query company role p m thr = none :=
  findBestMatchFaiss_eq_none f cfg query company role p m thr

/-- C1 (amended): `cache_response` performs no write-time quality
rejection — the built entry, with its computed quality score, is written
to the Redis/memory tier (and offered to the other tiers) even when that
score is below `min_quality_score`, and the call still reports success;
entries below the minimum are instead skipped at read time by the
Redis/memory linear scan. -/
theorem store_writes_regardless_of_quality :
    (∀ (embed : String → Except String (List ℚ)) (s : SemanticCacheState) (now : ℚ)
        (ok : Bool) (eid jd content : String) (parsed : ParsedJD) (p m : String)
        (tc : Nat) (cu : ℚ) (emb : List ℚ),
      embed jd = Except.ok emb →
      calculateQualityScore content parsed < s.config.min_quality_score →
      (cacheResponse embed s now ok eid jd content parsed p m tc cu).2 = true ∧
      alGet (storeKey s.config jd parsed p m)
          (cacheResponse embed s now ok eid jd content parsed p m tc cu).1.redis =
        some (builtEntry emb now content parsed p m tc cu)) ∧
    (∀ (cfg : CacheConfig) (stats : CacheStats) (store : List (String × CacheEntry))
        (rc : Bool) (q : List ℚ) (c r p m : String) (st' : CacheStats) (e : CacheEntry),
      findBestMatch cfg stats store rc q c r p m = (st', some e) →
      cfg.min_quality_score ≤ e.quality_score) := by
  constructor
  · intro embed s now ok eid jd content parsed p m tc cu emb hq _hlow
    unfold cacheResponse
    rw [hq]
    dsimp only
    refine ⟨rfl, ?_⟩
    cases hf : s.faiss <;> cases hv : s.vector_db <;>
      simp only [hf, hv, alGet_alPut_self]
  · intro cfg stats store rc q c r p m st' e h
    exact (findBestMatch_good cfg stats store rc q c r p m st' e h).2.2.1

/-- A configuration whose quality minimum (0.9) exceeds the highest
deduction-only score the heuristic can produce for short content (0.8). -/
def strictConfig : CacheConfig := {min_quality_score := 0.9}

def strictState : SemanticCacheState :=
  { config := strictConfig, stats := {}, redis_client := true, redis := [],
    faiss := none, vector_db := none }

set_option maxRecDepth 8000 in
/-- C1 (counterexample): a store whose computed quality score (0.8, short
content) is below the configured minimum (0.9) is *not* rejected: the call
returns success and the entry is present in the Redis/memory tier under
the store key afterward. -/
theorem low_quality_store_not_rejected :
    calculateQualityScore "hello world" {} < strictConfig.min_quality_score ∧
    (cacheResponse Samples.embedUnit strictState 0 true "id1" "some jd text"
        "hello world" {} "openai" "gpt-4o" 10 1).2 = true ∧
    alGet (storeKey strictConfig "some jd text" {} "openai" "gpt-4o")
        (cacheResponse Samples.embedUnit strictState 0 true "id1" "some jd text"
          "hello world" {} "openai" "gpt-4o" 10 1).1.redis =
      some (builtEntry [1, 0] 0 "hello world" {} "openai" "gpt-4o" 10 1) := by
  refine ⟨by decide, rfl, by decide⟩

set_option maxRecDepth 8000 in
theorem store_writes_regardless_of_quality_witness :
    calculateQualityScore "hello world" {} < strictState.config.min_quality_score ∧
    ((cacheResponse Samples.embedUnit strictState 0 true "id1" "some jd text"
        "hello world" {} "openai" "gpt-4o" 10 1).2 = true ∧
      alGet (storeKey strictState.config "some jd text" {} "openai" "gpt-4o")
          (cacheResponse Samples.embedUnit strictState 0 true "id1" "some jd text"
            "hello world" {} "openai" "gpt-4o" 10 1).1.redis =
        some (builtEntry [1, 0] 0 "hello world" {} "openai" "gpt-4o" 10 1)) :=
  ⟨by decide,
   store_writes_regardless_of_quality.1 Samples.embedUnit strictState 0 true "id1"
     "some jd text" "hello world" {} "openai" "gpt-4o" 10 1 [1, 0] rfl (by decide)⟩

/-- The entry as cached for the job description
`"Software Engineer at Acme"`; its generated content differs from the job
description, as it always does in practice. -/
def forkEntry : CacheEntry :=
  { content := "Dear Hiring Manager, I am excited to apply.", embedding := [1, 0],
    company := "Acme", role := "Engineer", skills := [], model_provider := "openai",
    model_name := "gpt-4o", token_count := 10, cost_usd := 1, created_at := 0,
    hit_count := 1, last_accessed := 0, quality_score := 1 }

def forkStoreKey : String :=
  storeKey {} "Software Engineer at Acme" {company := some "Acme", role := some "Engineer"}
    "openai" "gpt-4o"

def forkState : SemanticCacheState :=
  { config := {}, stats := {}, redis_client := true,
    redis := [(forkStoreKey, forkEntry)], faiss := none, vector_db := none }

set_option maxRecDepth 8000 in
/-- C4: `cache_response` keys the entry by the hash of the *job
description* text while `_update_cache_entry` keys it by the hash of the
*generated content* — on a hit-count update the entry is rewritten under a
second, different key, forking it into two store entries. Evaluated on a
concrete stored entry: after the update the store holds two bindings, the
original still under the store key. -/
theorem hit_update_forks_entry :
    forkStoreKey ≠
      createCacheKey ({} : CacheConfig) forkEntry.company forkEntry.role
        (sha256hex16 (forkEntry.content ++ ":" ++ forkEntry.model_provider ++ ":" ++
          forkEntry.model_name)) ∧
    (updateCacheEntry forkState forkEntry).redis.length = 2 ∧
    alGet forkStoreKey (updateCacheEntry forkState forkEntry).redis = some forkEntry := by
  refine ⟨by decide, by decide, by decide⟩

/-- C9: a lookup never surfaces an exception. When the persistent
vector-store tier is cut off — its circuit breaker OPEN within the
recovery window, or its backend failing — the failure is absorbed and the
result is exactly what the remaining Redis/memory scan produces (with the
hit-count update applied on a hit), so those tiers can still serve a hit
and an all-miss run returns `none`; and when even the embedding step
fails, the outer handler turns the exception into a `none` miss. (The
FAISS tier is probed first but never produces a hit; the vector-database
hypotheses disable its in-process sub-tiers so its outcome is decided by
the breaker-guarded ChromaDB call.) -/
theorem lookup_absorbs_vector_store_failure :
    (∀ (embed : String → Except String (List ℚ)) (s : SemanticCacheState) (now : ℚ)
        (io_ok : Bool) (jd p m : String) (parsed : Option ParsedJD) (q : List ℚ)
        (v : VectorDBState),
      embed jd = Except.ok q →
      s.vector_db = some v →
      ((v.breaker.state = "OPEN" ∧
          ¬(v.breaker.recovery_timeout < now - v.breaker.last_failure_time)) ∨
        io_ok = false) →
      v.memory_cache = none →
      v.faiss = none →
      (getCachedResponse embed s now io_ok jd p m parsed).2 =
        ((findBestMatch s.config
            {s.stats with total_requests := s.stats.total_requests + 1}
            s.redis s.redis_client q (companyOf parsed) (roleOf parsed) p m).2.map
          (fun e => {e with hit_count := e.hit_count + 1, last_accessed := now}))) ∧
    (∀ (embed : String → Except String (List ℚ)) (s : SemanticCacheState) (now : ℚ)
        (io_ok : Bool) (jd p m : String) (parsed : Option ParsedJD) (msg : String),
      embed jd = Except.error msg →
      (getCachedResponse embed s now io_ok jd p m parsed).2 = none) := by
  constructor
  · intro embed s now io_ok jd p m parsed q v hq hv hfail hmem hfaiss
    rw [getCachedResponse_shape embed s now io_ok jd p m parsed q hq]
    rw [probeTiers_fail embed
      {s with stats := {s.stats with total_requests := s.stats.total_requests + 1}}
      now io_ok jd p m parsed q v hv hmem hfaiss hfail]
  · intro embed s now io_ok jd p m parsed msg hq
    exact getCachedResponse_embed_error embed s now io_ok jd p m parsed msg hq

/-- A vector database whose breaker is OPEN since t = 100 with a 60-second
recovery window, and no in-process sub-tiers. -/
def openBreakerVdb : VectorDBState :=
  { config := {},
    breaker := { failure_threshold := 5, recovery_timeout := 60,
                 half_open_max_calls := 3, failure_count := 5,
                 last_failure_time := 100, half_open_calls := 0, state := "OPEN" },
    memory_cache := none, faiss := none, collection := [] }

def fallbackState : SemanticCacheState :=
  { config := {}, stats := {cache_hits := 1}, redis_client := true,
    redis := [("semantic_cache:acme:eng:abc", Samples.letterEntry)],
    faiss := none, vector_db := some openBreakerVdb }

set_option maxRecDepth 8000 in
theorem lookup_absorbs_vector_store_failure_witness :
    (getCachedResponse Samples.embedUnit fallbackState 120 true "jd" "openai"
        "gpt-4o" none).2 =
      some {Samples.letterEntry with hit_count := 1, last_accessed := 120} ∧
    (getCachedResponse Samples.embedFail fallbackState 120 true "jd" "openai"
        "gpt-4o" none).2 = none := by
  constructor
  · rw [lookup_absorbs_vector_store_failure.1 Samples.embedUnit fallbackState 120 true
      "jd" "openai" "gpt-4o" none [1, 0] openBreakerVdb rfl rfl
      (Or.inl ⟨rfl, by decide⟩) rfl rfl]
    decide
  · exact lookup_absorbs_vector_store_failure.2 Samples.embedFail fallbackState 120 true
      "jd" "openai" "gpt-4o" none "embedding backend down" rfl

end HuskyApply
